import Mathlib

/-
Verification development for the Buyer Request Workflow service (main.py).

Shallow embedding: each SQLite table is a list of rows, newest row first
(tables are row multisets; no claim depends on row order inside a table).
The random id generators (generate_id, secrets.token_urlsafe) are modelled
by the counter nextId, which only has to produce fresh identifiers:
uniqueness, not the concrete prefix scheme, is the contract.  Wall-clock
time (datetime.utcnow) is a Nat passed to every operation; ISO timestamp
strings compare exactly like the instants they denote.  Every endpoint
returns Except HTTPException (DB x response): get_db commits the returned
state on success and rolls back (keeps the input state) on an exception,
which applyOp below reproduces.
-/

/-- Roles, as validated by the pydantic model (enum Role in main.py). -/
inductive Role where
  | buyer
  | factory
deriving DecidableEq, Repr

/-- Role.value in python: the string stored and compared everywhere. -/
def Role.val : Role → String
  | .buyer => "buyer"
  | .factory => "factory"

/-- The dict returned by get_current_user. -/
structure UserInfo where
  userId : String
  role : String
  factoryId : Option String
deriving DecidableEq, Repr

/-- fastapi HTTPException: status code plus detail string. -/
structure HTTPException where
  status_code : Nat
  detail : String
deriving DecidableEq, Repr

/-- Row of the evidence table.  factory_id is the value of the
user["factoryId"] dict entry inserted by create_evidence, hence optional. -/
structure EvidenceRow where
  id : Nat
  factory_id : Option String
  name : String
  doc_type : String
  created_at : Nat
deriving DecidableEq, Repr

/-- Row of the evidence_versions table. -/
structure VersionRow where
  id : Nat
  evidence_id : Nat
  version_number : Nat
  expiry : Option String
  notes : Option String
  created_at : Nat
deriving DecidableEq, Repr

/-- Row of the requests table. -/
structure RequestRow where
  id : Nat
  buyer_id : String
  factory_id : String
  title : String
  status : String
  created_at : Nat
deriving DecidableEq, Repr

/-- Row of the request_items table. -/
structure ItemRow where
  id : Nat
  request_id : Nat
  doc_type : String
  status : String
  evidence_id : Option Nat
  version_id : Option Nat
  fulfilled_at : Option Nat
deriving DecidableEq, Repr

/-- Row of the auth_tokens table. -/
structure TokenRow where
  token : String
  user_id : String
  role : String
  factory_id : Option String
  created_at : Nat
  expires_at : Nat
deriving DecidableEq, Repr

/-- The object_id column of audit_log: either an entity id, or the literal
string N/A that login writes as a placeholder. -/
inductive ObjId where
  | entity : Nat → ObjId
  | na : ObjId
deriving DecidableEq, Repr

/-- A JSON value appearing in an audit metadata payload: a string, a number,
null, an entity id (serialized id string), an array, or a nested object. -/
inductive MetaVal where
  | s : String → MetaVal
  | n : Nat → MetaVal
  | null : MetaVal
  | ident : Nat → MetaVal
  | arr : List MetaVal → MetaVal
  | obj : List (String × MetaVal) → MetaVal

/-- Optional string serialized into JSON (python None becomes null). -/
def MetaVal.ofOptStr : Option String → MetaVal
  | none => .null
  | some v => .s v

/-- Row of the audit_log table (the autoincrement id is the row position). -/
structure AuditRow where
  timestamp : Nat
  actor_user_id : String
  actor_role : String
  action : String
  object_type : String
  object_id : ObjId
  metadata : List (String × MetaVal)

/-- The whole persisted state. -/
structure DB where
  audit_log : List AuditRow
  evidence : List EvidenceRow
  evidence_versions : List VersionRow
  requests : List RequestRow
  request_items : List ItemRow
  auth_tokens : List TokenRow
  nextId : Nat

/-- Freshly initialized database (init_db creates empty tables). -/
def initDB : DB :=
  { audit_log := [], evidence := [], evidence_versions := [], requests := [],
    request_items := [], auth_tokens := [], nextId := 0 }

/-- log_audit in main.py: insert one audit_log row. -/
def log_audit (db : DB) (now : Nat) (actor_user_id actor_role action object_type : String)
    (object_id : ObjId) (metadata : List (String × MetaVal)) : DB :=
  { db with audit_log :=
      { timestamp := now, actor_user_id := actor_user_id, actor_role := actor_role,
        action := action, object_type := object_type, object_id := object_id,
        metadata := metadata } :: db.audit_log }

/-- Python truthiness of an Optional[str]: None and the empty string are falsy. -/
def truthyOpt : Option String → Bool
  | none => false
  | some v => v ≠ ""

/-- Request body of POST /auth/login. -/
structure LoginRequest where
  userId : String
  role : Role
  factoryId : Option String
deriving DecidableEq, Repr

/-- Response body of POST /auth/login. -/
structure LoginResponse where
  token : String
  userId : String
  role : String
  factoryId : Option String
deriving DecidableEq, Repr

/-- login in main.py: validate the role and factoryId pairing, mint a token
valid for 24 hours, store it and write a LOGIN audit record. -/
def login (db : DB) (request : LoginRequest) (now : Nat) :
    Except HTTPException (DB × LoginResponse) :=
  if request.role = .factory ∧ ¬ truthyOpt request.factoryId then
    .error ⟨400, "Factory role requires factoryId"⟩
  else if request.role = .buyer ∧ truthyOpt request.factoryId then
    .error ⟨400, "Buyer role should not have factoryId"⟩
  else
    let token := "T" ++ toString db.nextId
    let expires_at := now + 24 * 3600
    let db1 := { db with
      auth_tokens := { token := token, user_id := request.userId, role := request.role.val,
                       factory_id := request.factoryId, created_at := now,
                       expires_at := expires_at } :: db.auth_tokens,
      nextId := db.nextId + 1 }
    let db2 := log_audit db1 now request.userId request.role.val "LOGIN" "Request" .na
      [("userId", .s request.userId), ("role", .s request.role.val),
       ("factoryId", MetaVal.ofOptStr request.factoryId)]
    .ok (db2, { token := token, userId := request.userId, role := request.role.val,
                factoryId := request.factoryId })

/-- Structural model of python str.split(" "): split at every single space,
keeping empty fragments. -/
def charSplit (sep : Char) : List Char → List (List Char)
  | [] => [[]]
  | c :: cs =>
    if c = sep then [] :: charSplit sep cs
    else
      match charSplit sep cs with
      | [] => [[c]]
      | w :: ws => (c :: w) :: ws

/-- authorization.split(" ") on a String. -/
def pySplitSpace (s : String) : List String :=
  (charSplit ' ' s.toList).map (fun w => String.mk w)

/-- Structural model of python str.startswith on character lists. -/
def listStarts : List Char → List Char → Bool
  | _, [] => true
  | [], _ :: _ => false
  | c :: cs, p :: ps => c = p && listStarts cs ps

/-- authorization.startswith(p). -/
def pyStartsWith (s p : String) : Bool := listStarts s.toList p.toList

/-- get_current_user in main.py: parse the bearer header, look the token up
in auth_tokens, reject expired tokens (expires_at strictly before now). -/
def get_current_user (db : DB) (authorization : Option String) (now : Nat) :
    Except HTTPException UserInfo :=
  match authorization with
  | none => .error ⟨401, "Missing or invalid authorization header"⟩
  | some auth =>
    if ¬ (truthyOpt (some auth) && pyStartsWith auth "Bearer ") then
      .error ⟨401, "Missing or invalid authorization header"⟩
    else
      let token := (pySplitSpace auth).getD 1 ""
      match db.auth_tokens.find? (fun t => t.token == token) with
      | none => .error ⟨401, "Invalid token"⟩
      | some row =>
        if row.expires_at < now then .error ⟨401, "Token expired"⟩
        else .ok { userId := row.user_id, role := row.role, factoryId := row.factory_id }

/-- require_role in main.py: the dependency checker applied after
get_current_user. -/
def require_role (required_role : Role) (user : UserInfo) : Except HTTPException UserInfo :=
  if user.role ≠ required_role.val then
    .error ⟨403, "Requires " ++ required_role.val ++ " role"⟩
  else .ok user

/-- Request body of POST /evidence. -/
structure EvidenceCreate where
  name : String
  docType : String
  expiry : Option String
  notes : Option String
deriving DecidableEq, Repr

/-- Response of POST /evidence and POST /evidence/{id}/versions. -/
structure EvidenceResponse where
  evidenceId : Nat
  versionId : Nat
deriving DecidableEq, Repr

/-- create_evidence in main.py: factory only; insert the evidence row owned
by the factory of the session, its initial version numbered 1, and one
CREATE_EVIDENCE audit record, in one transaction. -/
def create_evidence (db : DB) (evidence : EvidenceCreate) (user : UserInfo) (now : Nat) :
    Except HTTPException (DB × EvidenceResponse) :=
  match require_role .factory user with
  | .error e => .error e
  | .ok user =>
    let evidence_id := db.nextId
    let version_id := db.nextId + 1
    let db1 := { db with
      evidence := { id := evidence_id, factory_id := user.factoryId, name := evidence.name,
                    doc_type := evidence.docType, created_at := now } :: db.evidence,
      evidence_versions :=
        { id := version_id, evidence_id := evidence_id, version_number := 1,
          expiry := evidence.expiry, notes := evidence.notes, created_at := now }
          :: db.evidence_versions,
      nextId := db.nextId + 2 }
    let db2 := log_audit db1 now user.userId user.role "CREATE_EVIDENCE" "Evidence"
      (.entity evidence_id)
      [("factoryId", MetaVal.ofOptStr user.factoryId), ("name", .s evidence.name),
       ("docType", .s evidence.docType), ("versionId", .ident version_id)]
    .ok (db2, { evidenceId := evidence_id, versionId := version_id })

/-- Request body of POST /evidence/{id}/versions. -/
structure VersionCreate where
  notes : Option String
  expiry : Option String
deriving DecidableEq, Repr

/-- SQL MAX over the selected column: none on an empty selection. -/
def sql_max : List Nat → Option Nat
  | [] => none
  | x :: xs =>
    match sql_max xs with
    | none => some x
    | some m => some (max x m)

/-- add_evidence_version in main.py: factory only; the evidence must exist
and belong to the factory of the session; the next version number is
MAX(version_number)+1 (python: (max or 0) + 1); insert the version and one
ADD_VERSION audit record. -/
def add_evidence_version (db : DB) (evidence_id : Nat) (version : VersionCreate)
    (user : UserInfo) (now : Nat) : Except HTTPException (DB × EvidenceResponse) :=
  match require_role .factory user with
  | .error e => .error e
  | .ok user =>
    match db.evidence.find? (fun e => e.id == evidence_id) with
    | none => .error ⟨404, "Evidence not found"⟩
    | some row =>
      if row.factory_id ≠ user.factoryId then
        .error ⟨403, "Cannot add version to other factory's evidence"⟩
      else
        let max_version := (sql_max
          ((db.evidence_versions.filter (fun v => v.evidence_id == evidence_id)).map
            (fun v => v.version_number))).getD 0
        let new_version_number := max_version + 1
        let version_id := db.nextId
        let db1 := { db with
          evidence_versions :=
            { id := version_id, evidence_id := evidence_id,
              version_number := new_version_number, expiry := version.expiry,
              notes := version.notes, created_at := now } :: db.evidence_versions,
          nextId := db.nextId + 1 }
        let db2 := log_audit db1 now user.userId user.role "ADD_VERSION" "Version"
          (.entity version_id)
          [("factoryId", MetaVal.ofOptStr user.factoryId), ("evidenceId", .ident evidence_id),
           ("versionNumber", .n new_version_number)]
        .ok (db2, { evidenceId := evidence_id, versionId := version_id })

/-- One element of the items list of POST /requests. -/
structure RequestItemBody where
  docType : String
deriving DecidableEq, Repr

/-- Request body of POST /requests. -/
structure RequestCreate where
  factoryId : String
  title : String
  items : List RequestItemBody
deriving DecidableEq, Repr

/-- Response of POST /requests. -/
structure CreateRequestResponse where
  requestId : Nat
  status : String
  itemIds : List Nat
deriving DecidableEq, Repr

/-- The item rows inserted by the loop of create_request: one pending row per
requested docType, with consecutive fresh ids starting at firstId. -/
def make_items (request_id : Nat) (firstId : Nat) : List RequestItemBody → List ItemRow
  | [] => []
  | it :: rest =>
    { id := firstId, request_id := request_id, doc_type := it.docType, status := "pending",
      evidence_id := none, version_id := none, fulfilled_at := none }
      :: make_items request_id (firstId + 1) rest

/-- create_request in main.py: buyer only; insert the pending request row and
all its pending item rows, and one CREATE_REQUEST audit record summarizing
the batch, in one transaction. -/
def create_request (db : DB) (request : RequestCreate) (user : UserInfo) (now : Nat) :
    Except HTTPException (DB × CreateRequestResponse) :=
  match require_role .buyer user with
  | .error e => .error e
  | .ok user =>
    let request_id := db.nextId
    let new_items := make_items request_id (db.nextId + 1) request.items
    let item_ids := new_items.map (fun it => it.id)
    let db1 := { db with
      requests := { id := request_id, buyer_id := user.userId, factory_id := request.factoryId,
                    title := request.title, status := "pending", created_at := now }
                  :: db.requests,
      request_items := new_items ++ db.request_items,
      nextId := db.nextId + 1 + request.items.length }
    let db2 := log_audit db1 now user.userId user.role "CREATE_REQUEST" "Request"
      (.entity request_id)
      [("buyerId", .s user.userId), ("factoryId", .s request.factoryId),
       ("title", .s request.title), ("itemCount", .n request.items.length),
       ("items", .arr (request.items.map (fun it => .obj [("docType", .s it.docType)])))]
    .ok (db2, { requestId := request_id, status := "pending", itemIds := item_ids })

/-- One item dict in the GET /factory/requests response. -/
structure ItemOut where
  id : Nat
  doc_type : String
  status : String
  evidence_id : Option Nat
  version_id : Option Nat
  fulfilled_at : Option Nat
deriving DecidableEq, Repr

/-- One request object in the GET /factory/requests response. -/
structure RequestOut where
  requestId : Nat
  buyerId : String
  factoryId : String
  title : String
  status : String
  createdAt : Nat
  items : List ItemOut
deriving DecidableEq, Repr

/-- Insertion into a list kept in descending created_at order (stable). -/
def insertDesc (x : RequestRow) : List RequestRow → List RequestRow
  | [] => [x]
  | y :: ys => if x.created_at ≤ y.created_at then y :: insertDesc x ys else x :: y :: ys

/-- ORDER BY created_at DESC. -/
def sortDesc : List RequestRow → List RequestRow
  | [] => []
  | x :: xs => insertDesc x (sortDesc xs)

/-- get_factory_requests in main.py: factory only; the WHERE clause keeps
exactly the requests whose factory_id equals the factoryId of the session
(an SQL comparison with NULL keeps nothing), newest first, each with its
item rows attached. -/
def get_factory_requests (db : DB) (user : UserInfo) :
    Except HTTPException (List RequestOut) :=
  match require_role .factory user with
  | .error e => .error e
  | .ok user =>
    let rows := sortDesc (db.requests.filter (fun r => user.factoryId == some r.factory_id))
    .ok (rows.map (fun r =>
      { requestId := r.id, buyerId := r.buyer_id, factoryId := r.factory_id,
        title := r.title, status := r.status, createdAt := r.created_at,
        items := (db.request_items.filter (fun it => it.request_id == r.id)).map
          (fun it => { id := it.id, doc_type := it.doc_type, status := it.status,
                       evidence_id := it.evidence_id, version_id := it.version_id,
                       fulfilled_at := it.fulfilled_at }) }))

/-- Request body of POST /requests/{rid}/items/{iid}/fulfill. -/
structure FulfillRequest where
  evidenceId : Nat
  versionId : Nat
deriving DecidableEq, Repr

/-- Response of POST /requests/{rid}/items/{iid}/fulfill. -/
structure FulfillResponse where
  success : Bool
  itemId : Nat
  status : String
deriving DecidableEq, Repr

/-- The UPDATE request_items statement of fulfill_request_item: the row whose
id matches becomes fulfilled with the given evidence, version and timestamp. -/
def updItem (item_id : Nat) (fulfill : FulfillRequest) (now : Nat) (it : ItemRow) : ItemRow :=
  if it.id = item_id then
    { it with status := "fulfilled", evidence_id := some fulfill.evidenceId,
              version_id := some fulfill.versionId, fulfilled_at := some now }
  else it

/-- The UPDATE requests statement of fulfill_request_item: the row whose id
matches becomes completed. -/
def completeReq (request_id : Nat) (r : RequestRow) : RequestRow :=
  if r.id = request_id then { r with status := "completed" } else r

/-- fulfill_request_item in main.py: factory only; the five checks in source
order, then set the item to fulfilled (attaching evidence, version and
timestamp), recompute the request status from the item counts (SQL SUM over
zero rows is NULL), and write one FULFILL_ITEM audit record. -/
def fulfill_request_item (db : DB) (request_id item_id : Nat) (fulfill : FulfillRequest)
    (user : UserInfo) (now : Nat) : Except HTTPException (DB × FulfillResponse) :=
  match require_role .factory user with
  | .error e => .error e
  | .ok user =>
    match db.requests.find? (fun r => r.id == request_id) with
    | none => .error ⟨404, "Request not found"⟩
    | some request_row =>
      if (some request_row.factory_id : Option String) ≠ user.factoryId then
        .error ⟨403, "Cannot fulfill other factory's requests"⟩
      else
        match db.request_items.find? (fun it => it.id == item_id && it.request_id == request_id) with
        | none => .error ⟨404, "Request item not found"⟩
        | some item_row =>
          let previous_status := item_row.status
          let doc_type := item_row.doc_type
          match db.evidence.find? (fun e => e.id == fulfill.evidenceId) with
          | none => .error ⟨404, "Evidence not found"⟩
          | some evidence_row =>
            if evidence_row.factory_id ≠ user.factoryId then
              .error ⟨403, "Cannot use other factory's evidence"⟩
            else
              match db.evidence_versions.find?
                  (fun v => v.id == fulfill.versionId && v.evidence_id == fulfill.evidenceId) with
              | none => .error ⟨404, "Evidence version not found"⟩
              | some _ =>
                let items1 := db.request_items.map (updItem item_id fulfill now)
                let reqItems := items1.filter (fun it => it.request_id == request_id)
                let total := reqItems.length
                let fulfilled : Option Nat :=
                  if total = 0 then none
                  else some ((reqItems.filter (fun it => it.status == "fulfilled")).length)
                let requests1 :=
                  if (some total : Option Nat) = fulfilled then
                    db.requests.map (completeReq request_id)
                  else db.requests
                let db1 := { db with request_items := items1, requests := requests1 }
                let db2 := log_audit db1 now user.userId user.role "FULFILL_ITEM" "RequestItem"
                  (.entity item_id)
                  [("factoryId", MetaVal.ofOptStr user.factoryId),
                   ("buyerId", .s request_row.buyer_id), ("requestId", .ident request_id),
                   ("docType", .s doc_type), ("evidenceId", .ident fulfill.evidenceId),
                   ("versionId", .ident fulfill.versionId),
                   ("previousStatus", .s previous_status), ("newStatus", .s "fulfilled")]
                .ok (db2, { success := true, itemId := item_id, status := "fulfilled" })

/-- One inbound mutating action with its already-resolved identity. -/
inductive Op where
  | opLogin (request : LoginRequest)
  | opCreateEvidence (evidence : EvidenceCreate) (user : UserInfo)
  | opAddVersion (evidence_id : Nat) (version : VersionCreate) (user : UserInfo)
  | opCreateRequest (request : RequestCreate) (user : UserInfo)
  | opFulfill (request_id item_id : Nat) (fulfill : FulfillRequest) (user : UserInfo)

/-- The state after one action: get_db commits the new state on success and
rolls back to the old state when the handler raises. -/
def applyOp (db : DB) (op : Op) (now : Nat) : DB :=
  match op with
  | .opLogin request =>
    match login db request now with
    | .ok (db1, _) => db1
    | .error _ => db
  | .opCreateEvidence evidence user =>
    match create_evidence db evidence user now with
    | .ok (db1, _) => db1
    | .error _ => db
  | .opAddVersion evidence_id version user =>
    match add_evidence_version db evidence_id version user now with
    | .ok (db1, _) => db1
    | .error _ => db
  | .opCreateRequest request user =>
    match create_request db request user now with
    | .ok (db1, _) => db1
    | .error _ => db
  | .opFulfill request_id item_id fulfill user =>
    match fulfill_request_item db request_id item_id fulfill user now with
    | .ok (db1, _) => db1
    | .error _ => db

/-- The state after a sequence of timestamped actions. -/
def applyOps (db : DB) : List (Op × Nat) → DB
  | [] => db
  | (op, now) :: rest => applyOps (applyOp db op now) rest

/-- States reachable from the fresh database through the exposed operations. -/
inductive Reachable : DB → Prop where
  | init : Reachable initDB
  | step (db : DB) (op : Op) (now : Nat) : Reachable db → Reachable (applyOp db op now)

/-- The version_number column of the versions of one evidence id, in table
order. -/
def versionNumbersL (vs : List VersionRow) (eid : Nat) : List Nat :=
  (vs.filter (fun v => v.evidence_id == eid)).map (fun v => v.version_number)

/-- The version numbers of one evidence id in the database. -/
def versionNumbers (db : DB) (eid : Nat) : List Nat :=
  versionNumbersL db.evidence_versions eid

/-- The list n, n-1, ..., 2, 1. -/
def countdown : Nat → List Nat
  | 0 => []
  | n + 1 => (n + 1) :: countdown n

/-- Identifier freshness: every identifier stored in the database is below
the generator counter. -/
def Fresh (db : DB) : Prop :=
  (∀ r ∈ db.requests, r.id < db.nextId) ∧
  (∀ it ∈ db.request_items, it.id < db.nextId ∧ it.request_id < db.nextId) ∧
  (∀ e ∈ db.evidence, e.id < db.nextId) ∧
  (∀ v ∈ db.evidence_versions, v.evidence_id < db.nextId)

/-- Request status wellformedness: every stored request status is pending or
completed, and a completed request only has fulfilled items. -/
def StatusInv (db : DB) : Prop :=
  ∀ r ∈ db.requests,
    (r.status = "pending" ∨ r.status = "completed") ∧
    (r.status = "completed" →
      ∀ it ∈ db.request_items, it.request_id = r.id → it.status = "fulfilled")

/-- Version numbering wellformedness: the numbers of the versions of any
evidence id, newest first, are N, ..., 2, 1 where N counts them. -/
def VersInv (db : DB) : Prop :=
  ∀ eid, versionNumbers db eid = countdown (versionNumbers db eid).length

/-- Item id uniqueness across the request_items table. -/
def ItemsNodup (db : DB) : Prop := (db.request_items.map (fun it => it.id)).Nodup

/-- Completion direction: a request having at least one item, all of whose
items are fulfilled, is stored as completed. -/
def CompleteInv (db : DB) : Prop :=
  ∀ r ∈ db.requests,
    (∃ it ∈ db.request_items, it.request_id = r.id) →
    (∀ it ∈ db.request_items, it.request_id = r.id → it.status = "fulfilled") →
    r.status = "completed"

/-- Request id uniqueness across the requests table. -/
def RequestsNodup (db : DB) : Prop := (db.requests.map (fun r => r.id)).Nodup

/-- The invariant carried by every reachable state. -/
def DBInv (db : DB) : Prop :=
  Fresh db ∧ StatusInv db ∧ VersInv db ∧ ItemsNodup db ∧ CompleteInv db ∧ RequestsNodup db

/-- A buyer identity used by the concrete executions below. -/
def buyerBob : UserInfo := ⟨"bob", "buyer", none⟩

/-- A factory identity bound to factory F001. -/
def factoryFred : UserInfo := ⟨"fred", "factory", some "F001"⟩

/-- A factory identity bound to factory F002. -/
def factoryGina : UserInfo := ⟨"gina", "factory", some "F002"⟩

/-- Concrete run: one single-item request (request 0, item 1), two evidence
documents (2 with version 3, 4 with version 5), and a fulfillment of the
item with evidence 2, version 3 at time 10. -/
def scenarioOps : List (Op × Nat) :=
  [(.opCreateRequest ⟨"F001", "t", [⟨"Test Report"⟩]⟩ buyerBob, 1),
   (.opCreateEvidence ⟨"doc", "Test Report", none, none⟩ factoryFred, 2),
   (.opCreateEvidence ⟨"doc2", "Test Report", none, none⟩ factoryFred, 3),
   (.opFulfill 0 1 ⟨2, 3⟩ factoryFred, 10)]

/-- The state after scenarioOps. -/
def scenarioDB : DB := applyOps initDB scenarioOps

/-- The state after fulfilling the already fulfilled item 1 a second time,
with the other evidence, at time 20. -/
def scenarioDB2 : DB := applyOp scenarioDB (.opFulfill 0 1 ⟨4, 5⟩ factoryFred) 20

/-- The state after adding a second version to evidence 2 at time 25. -/
def dbAddVer : DB := applyOp scenarioDB (.opAddVersion 2 ⟨none, none⟩ factoryFred) 25

/-- The state after a single buyer login at time 0 (token T0, expiry 86400). -/
def dbLogin : DB := applyOp initDB (.opLogin ⟨"u", .buyer, none⟩) 0

/-- The state after creating a request with an empty items list at time 5. -/
def dbE : DB := applyOp initDB (.opCreateRequest ⟨"F001", "t", []⟩ buyerBob) 5

/-- The state after a single create_evidence at time 2. -/
def dbEv : DB := applyOp initDB (.opCreateEvidence ⟨"doc", "Test", none, none⟩ factoryFred) 2

/-- Concrete run for the request status claim: an empty request (id 0), a
one-item request (id 1, item 2) and one evidence document (3, version 4). -/
def c2ops : List (Op × Nat) :=
  [(.opCreateRequest ⟨"F001", "t0", []⟩ buyerBob, 1),
   (.opCreateRequest ⟨"F001", "t1", [⟨"Doc"⟩]⟩ buyerBob, 2),
   (.opCreateEvidence ⟨"d", "Doc", none, none⟩ factoryFred, 3)]

/-- The state after c2ops. -/
def dbC2pre : DB := applyOps initDB c2ops

/-- The state after fulfilling item 2 of request 1 at time 10. -/
def dbC2post : DB := applyOp dbC2pre (.opFulfill 1 2 ⟨3, 4⟩ factoryFred) 10

theorem countdown_length (n : Nat) : (countdown n).length = n := by
  induction n with
  | zero => rfl
  | succ n ih => simp [countdown, ih]

theorem mem_countdown {k n : Nat} : k ∈ countdown n ↔ 1 ≤ k ∧ k ≤ n := by
  induction n with
  | zero => simp [countdown]; omega
  | succ n ih => simp [countdown, ih]; omega

theorem countdown_nodup (n : Nat) : (countdown n).Nodup := by
  induction n with
  | zero => simp [countdown]
  | succ n ih =>
    simp [countdown, ih]
    intro hmem
    have := mem_countdown.mp hmem
    omega

theorem sql_max_countdown (n : Nat) :
    sql_max (countdown n) = if n = 0 then none else some n := by
  induction n with
  | zero => rfl
  | succ n ih =>
    by_cases hn : n = 0
    · subst hn; rfl
    · simp only [countdown, sql_max, ih, if_neg hn]
      simp [Nat.max_eq_left (by omega : n ≤ n + 1)]

theorem versionNumbersL_cons (v : VersionRow) (vs : List VersionRow) (eid : Nat) :
    versionNumbersL (v :: vs) eid =
      if v.evidence_id = eid then v.version_number :: versionNumbersL vs eid
      else versionNumbersL vs eid := by
  by_cases h : v.evidence_id = eid <;> simp [versionNumbersL, List.filter_cons, h]

theorem versionNumbersL_eq_nil {vs : List VersionRow} {eid : Nat}
    (h : ∀ v ∈ vs, v.evidence_id ≠ eid) : versionNumbersL vs eid = [] := by
  induction vs with
  | nil => rfl
  | cons v vs ih =>
    rw [versionNumbersL_cons, if_neg (h v (by simp))]
    exact ih (fun w hw => h w (by simp [hw]))

theorem mem_make_items {it : ItemRow} {rid fid : Nat} {l : List RequestItemBody}
    (h : it ∈ make_items rid fid l) :
    it.request_id = rid ∧ it.status = "pending" ∧ fid ≤ it.id ∧ it.id < fid + l.length := by
  induction l generalizing fid with
  | nil => simp [make_items] at h
  | cons b l ih =>
    simp only [make_items, List.mem_cons] at h
    rcases h with h | h
    · subst h
      refine ⟨rfl, rfl, Nat.le_refl _, by simp⟩
    · obtain ⟨h1, h2, h3, h4⟩ := ih h
      refine ⟨h1, h2, by omega, ?_⟩
      simp only [List.length_cons]
      omega

theorem nodup_map_id_inj {l : List ItemRow}
    (h : (l.map (fun it => it.id)).Nodup) :
    ∀ a ∈ l, ∀ b ∈ l, a.id = b.id → a = b := by
  induction l with
  | nil =>
    intro a ha
    cases ha
  | cons x xs ih =>
    simp only [List.map_cons, List.nodup_cons] at h
    obtain ⟨hx, hxs⟩ := h
    intro a ha b hb hab
    rcases List.mem_cons.mp ha with rfl | ha2 <;> rcases List.mem_cons.mp hb with rfl | hb2
    · rfl
    · exact absurd (hab ▸ List.mem_map_of_mem (fun it => it.id) hb2) hx
    · exact absurd (hab ▸ List.mem_map_of_mem (fun it => it.id) ha2) hx
    · exact ih hxs a ha2 b hb2 hab

theorem nodup_map_rid_inj {l : List RequestRow}
    (h : (l.map (fun r => r.id)).Nodup) :
    ∀ a ∈ l, ∀ b ∈ l, a.id = b.id → a = b := by
  induction l with
  | nil =>
    intro a ha
    cases ha
  | cons x xs ih =>
    simp only [List.map_cons, List.nodup_cons] at h
    obtain ⟨hx, hxs⟩ := h
    intro a ha b hb hab
    rcases List.mem_cons.mp ha with rfl | ha2 <;> rcases List.mem_cons.mp hb with rfl | hb2
    · rfl
    · exact absurd (hab ▸ List.mem_map_of_mem (fun r => r.id) hb2) hx
    · exact absurd (hab ▸ List.mem_map_of_mem (fun r => r.id) ha2) hx
    · exact ih hxs a ha2 b hb2 hab

theorem make_items_ids_nodup (rid fid : Nat) (l : List RequestItemBody) :
    ((make_items rid fid l).map (fun it => it.id)).Nodup := by
  induction l generalizing fid with
  | nil => simp [make_items]
  | cons b l ih =>
    simp only [make_items, List.map_cons, List.nodup_cons]
    refine ⟨?_, ih (fid + 1)⟩
    intro hmem
    obtain ⟨it, hit, hid⟩ := List.mem_map.mp hmem
    have := mem_make_items hit
    omega

theorem require_role_ok {role : Role} {user u : UserInfo}
    (h : require_role role user = .ok u) : u = user ∧ user.role = role.val := by
  unfold require_role at h
  split at h
  · cases h
  · rename_i hne
    refine ⟨by cases h; rfl, ?_⟩
    simpa using hne

theorem login_ok {db : DB} {request : LoginRequest} {now : Nat} {dbO : DB}
    {resp : LoginResponse} (h : login db request now = .ok (dbO, resp)) :
    dbO.evidence = db.evidence ∧ dbO.evidence_versions = db.evidence_versions ∧
    dbO.requests = db.requests ∧ dbO.request_items = db.request_items ∧
    dbO.nextId = db.nextId + 1 ∧
    dbO.auth_tokens =
      { token := "T" ++ toString db.nextId, user_id := request.userId,
        role := request.role.val, factory_id := request.factoryId, created_at := now,
        expires_at := now + 24 * 3600 } :: db.auth_tokens ∧
    dbO.audit_log =
      { timestamp := now, actor_user_id := request.userId, actor_role := request.role.val,
        action := "LOGIN", object_type := "Request", object_id := .na,
        metadata := [("userId", .s request.userId), ("role", .s request.role.val),
                     ("factoryId", MetaVal.ofOptStr request.factoryId)] } :: db.audit_log ∧
    resp = { token := "T" ++ toString db.nextId, userId := request.userId,
             role := request.role.val, factoryId := request.factoryId } := by
  simp only [login, log_audit] at h
  split at h
  · cases h
  split at h
  · cases h
  simp only [Except.ok.injEq, Prod.mk.injEq] at h
  obtain ⟨h1, h2⟩ := h
  subst h1
  subst h2
  simp

theorem create_evidence_ok {db : DB} {evidence : EvidenceCreate} {user : UserInfo}
    {now : Nat} {dbO : DB} {resp : EvidenceResponse}
    (h : create_evidence db evidence user now = .ok (dbO, resp)) :
    user.role = "factory" ∧
    dbO.requests = db.requests ∧ dbO.request_items = db.request_items ∧
    dbO.auth_tokens = db.auth_tokens ∧
    dbO.evidence =
      { id := db.nextId, factory_id := user.factoryId, name := evidence.name,
        doc_type := evidence.docType, created_at := now } :: db.evidence ∧
    dbO.evidence_versions =
      { id := db.nextId + 1, evidence_id := db.nextId, version_number := 1,
        expiry := evidence.expiry, notes := evidence.notes, created_at := now }
        :: db.evidence_versions ∧
    dbO.nextId = db.nextId + 2 ∧
    dbO.audit_log =
      { timestamp := now, actor_user_id := user.userId, actor_role := user.role,
        action := "CREATE_EVIDENCE", object_type := "Evidence",
        object_id := .entity db.nextId,
        metadata := [("factoryId", MetaVal.ofOptStr user.factoryId),
                     ("name", .s evidence.name), ("docType", .s evidence.docType),
                     ("versionId", .ident (db.nextId + 1))] } :: db.audit_log ∧
    resp = { evidenceId := db.nextId, versionId := db.nextId + 1 } := by
  cases hreq : require_role Role.factory user with
  | error e =>
    rw [create_evidence, hreq] at h
    cases h
  | ok u =>
    obtain ⟨rfl, hrole⟩ := require_role_ok hreq
    simp only [create_evidence, hreq, log_audit] at h
    simp only [Except.ok.injEq, Prod.mk.injEq] at h
    obtain ⟨h1, h2⟩ := h
    subst h1
    subst h2
    simp [hrole, Role.val]

theorem add_version_ok {db : DB} {evidence_id : Nat} {version : VersionCreate}
    {user : UserInfo} {now : Nat} {dbO : DB} {resp : EvidenceResponse}
    (h : add_evidence_version db evidence_id version user now = .ok (dbO, resp)) :
    user.role = "factory" ∧
    (∃ row ∈ db.evidence, row.id = evidence_id ∧ row.factory_id = user.factoryId) ∧
    dbO.requests = db.requests ∧ dbO.request_items = db.request_items ∧
    dbO.auth_tokens = db.auth_tokens ∧ dbO.evidence = db.evidence ∧
    dbO.evidence_versions =
      { id := db.nextId, evidence_id := evidence_id,
        version_number := (sql_max (versionNumbers db evidence_id)).getD 0 + 1,
        expiry := version.expiry, notes := version.notes, created_at := now }
        :: db.evidence_versions ∧
    dbO.nextId = db.nextId + 1 ∧
    dbO.audit_log =
      { timestamp := now, actor_user_id := user.userId, actor_role := user.role,
        action := "ADD_VERSION", object_type := "Version",
        object_id := .entity db.nextId,
        metadata := [("factoryId", MetaVal.ofOptStr user.factoryId),
                     ("evidenceId", .ident evidence_id),
                     ("versionNumber", .n ((sql_max (versionNumbers db evidence_id)).getD 0 + 1))]
        } :: db.audit_log ∧
    resp = { evidenceId := evidence_id, versionId := db.nextId } := by
  cases hreq : require_role Role.factory user with
  | error e =>
    rw [add_evidence_version, hreq] at h
    cases h
  | ok u =>
    obtain ⟨rfl, hrole⟩ := require_role_ok hreq
    simp only [add_evidence_version, hreq] at h
    cases hfind : db.evidence.find? (fun e => e.id == evidence_id) with
    | none =>
      rw [hfind] at h
      cases h
    | some row =>
      simp only [hfind, log_audit] at h
      split at h
      · cases h
      rename_i hfac
      simp only [Except.ok.injEq, Prod.mk.injEq] at h
      obtain ⟨h1, h2⟩ := h
      subst h1
      subst h2
      have hmem : row ∈ db.evidence := List.mem_of_find?_eq_some hfind
      have hid : row.id = evidence_id := by
        have := List.find?_some hfind
        simpa [beq_iff_eq] using this
      refine ⟨by simpa [Role.val] using hrole, ⟨row, hmem, hid, by simpa using hfac⟩, ?_⟩
      simp [versionNumbers, versionNumbersL]

theorem create_request_ok {db : DB} {request : RequestCreate} {user : UserInfo}
    {now : Nat} {dbO : DB} {resp : CreateRequestResponse}
    (h : create_request db request user now = .ok (dbO, resp)) :
    user.role = "buyer" ∧
    dbO.evidence = db.evidence ∧ dbO.evidence_versions = db.evidence_versions ∧
    dbO.auth_tokens = db.auth_tokens ∧
    dbO.requests =
      { id := db.nextId, buyer_id := user.userId, factory_id := request.factoryId,
        title := request.title, status := "pending", created_at := now } :: db.requests ∧
    dbO.request_items =
      make_items db.nextId (db.nextId + 1) request.items ++ db.request_items ∧
    dbO.nextId = db.nextId + 1 + request.items.length ∧
    dbO.audit_log =
      { timestamp := now, actor_user_id := user.userId, actor_role := user.role,
        action := "CREATE_REQUEST", object_type := "Request",
        object_id := .entity db.nextId,
        metadata := [("buyerId", .s user.userId), ("factoryId", .s request.factoryId),
                     ("title", .s request.title), ("itemCount", .n request.items.length),
                     ("items", .arr (request.items.map
                       (fun it => .obj [("docType", .s it.docType)])))] } :: db.audit_log ∧
    resp = { requestId := db.nextId, status := "pending",
             itemIds := (make_items db.nextId (db.nextId + 1) request.items).map
               (fun it => it.id) } := by
  cases hreq : require_role Role.buyer user with
  | error e =>
    rw [create_request, hreq] at h
    cases h
  | ok u =>
    obtain ⟨rfl, hrole⟩ := require_role_ok hreq
    simp only [create_request, hreq, log_audit] at h
    simp only [Except.ok.injEq, Prod.mk.injEq] at h
    obtain ⟨h1, h2⟩ := h
    subst h1
    subst h2
    simp [hrole, Role.val]

theorem updItem_id (iid : Nat) (f : FulfillRequest) (now : Nat) (it : ItemRow) :
    (updItem iid f now it).id = it.id := by
  unfold updItem
  split <;> rfl

theorem updItem_request_id (iid : Nat) (f : FulfillRequest) (now : Nat) (it : ItemRow) :
    (updItem iid f now it).request_id = it.request_id := by
  unfold updItem
  split <;> rfl

theorem updItem_status (iid : Nat) (f : FulfillRequest) (now : Nat) (it : ItemRow) :
    (updItem iid f now it).status = if it.id = iid then "fulfilled" else it.status := by
  unfold updItem
  split <;> simp_all

theorem completeReq_id (rid : Nat) (r : RequestRow) : (completeReq rid r).id = r.id := by
  unfold completeReq
  split <;> rfl

theorem completeReq_status (rid : Nat) (r : RequestRow) :
    (completeReq rid r).status = if r.id = rid then "completed" else r.status := by
  unfold completeReq
  split <;> simp_all

theorem fulfill_count_iff {items1 : List ItemRow} {request_id : Nat}
    (hne : ∃ it ∈ items1, it.request_id = request_id) :
    ((some (items1.filter (fun it => it.request_id == request_id)).length : Option Nat) =
      (if (items1.filter (fun it => it.request_id == request_id)).length = 0 then none
       else some (((items1.filter (fun it => it.request_id == request_id)).filter
         (fun it => it.status == "fulfilled")).length)))
    ↔ ∀ it ∈ items1, it.request_id = request_id → it.status = "fulfilled" := by
  obtain ⟨it0, hmem, hrid⟩ := hne
  have hmemf : it0 ∈ items1.filter (fun it => it.request_id == request_id) :=
    List.mem_filter.mpr ⟨hmem, by simpa [beq_iff_eq] using hrid⟩
  have hlen : (items1.filter (fun it => it.request_id == request_id)).length ≠ 0 := by
    intro h0
    rw [List.length_eq_zero] at h0
    rw [h0] at hmemf
    cases hmemf
  rw [if_neg hlen, Option.some.injEq, eq_comm, List.filter_length_eq_length]
  constructor
  · intro hall it hit hrid2
    have := hall it (List.mem_filter.mpr ⟨hit, by simpa [beq_iff_eq] using hrid2⟩)
    simpa [beq_iff_eq] using this
  · intro hall it hit
    obtain ⟨hmem2, hr2⟩ := List.mem_filter.mp hit
    have hr3 : it.request_id = request_id := by simpa [beq_iff_eq] using hr2
    simpa [beq_iff_eq] using hall it hmem2 hr3

theorem fulfill_ok {db : DB} {request_id item_id : Nat} {fulfill : FulfillRequest}
    {user : UserInfo} {now : Nat} {dbO : DB} {resp : FulfillResponse}
    (h : fulfill_request_item db request_id item_id fulfill user now = .ok (dbO, resp)) :
    user.role = "factory" ∧
    (∃ request_row ∈ db.requests, request_row.id = request_id ∧
      some request_row.factory_id = user.factoryId ∧
      ∃ item_row ∈ db.request_items, item_row.id = item_id ∧
        item_row.request_id = request_id ∧
        (∃ evidence_row ∈ db.evidence, evidence_row.id = fulfill.evidenceId ∧
          evidence_row.factory_id = user.factoryId) ∧
        (∃ version_row ∈ db.evidence_versions, version_row.id = fulfill.versionId ∧
          version_row.evidence_id = fulfill.evidenceId) ∧
        dbO.audit_log =
          { timestamp := now, actor_user_id := user.userId, actor_role := user.role,
            action := "FULFILL_ITEM", object_type := "RequestItem",
            object_id := .entity item_id,
            metadata := [("factoryId", MetaVal.ofOptStr user.factoryId),
                         ("buyerId", .s request_row.buyer_id),
                         ("requestId", .ident request_id),
                         ("docType", .s item_row.doc_type),
                         ("evidenceId", .ident fulfill.evidenceId),
                         ("versionId", .ident fulfill.versionId),
                         ("previousStatus", .s item_row.status),
                         ("newStatus", .s "fulfilled")] } :: db.audit_log) ∧
    dbO.evidence = db.evidence ∧ dbO.evidence_versions = db.evidence_versions ∧
    dbO.auth_tokens = db.auth_tokens ∧ dbO.nextId = db.nextId ∧
    dbO.request_items = db.request_items.map (updItem item_id fulfill now) ∧
    ((dbO.requests = db.requests ∧
        ¬ ∀ it ∈ db.request_items.map (updItem item_id fulfill now),
            it.request_id = request_id → it.status = "fulfilled") ∨
     (dbO.requests = db.requests.map (completeReq request_id) ∧
        ∀ it ∈ db.request_items.map (updItem item_id fulfill now),
            it.request_id = request_id → it.status = "fulfilled")) ∧
    resp = { success := true, itemId := item_id, status := "fulfilled" } := by
  cases hreq : require_role Role.factory user with
  | error e =>
    rw [fulfill_request_item, hreq] at h
    cases h
  | ok u =>
    obtain ⟨rfl, hrole⟩ := require_role_ok hreq
    rw [fulfill_request_item, hreq] at h
    cases hfr : db.requests.find? (fun r => r.id == request_id) with
    | none =>
      simp only [hfr] at h
      cases h
    | some request_row =>
    simp only [hfr] at h
    split at h
    · cases h
    rename_i hfac1
    cases hfi : db.request_items.find?
        (fun it => it.id == item_id && it.request_id == request_id) with
    | none =>
      simp only [hfi] at h
      cases h
    | some item_row =>
    simp only [hfi] at h
    cases hfe : db.evidence.find? (fun e => e.id == fulfill.evidenceId) with
    | none =>
      simp only [hfe] at h
      cases h
    | some evidence_row =>
    simp only [hfe] at h
    split at h
    · cases h
    rename_i hfac2
    cases hfv : db.evidence_versions.find?
        (fun v => v.id == fulfill.versionId && v.evidence_id == fulfill.evidenceId) with
    | none =>
      simp only [hfv] at h
      cases h
    | some version_row =>
    simp only [hfv, log_audit] at h
    have hmemR : request_row ∈ db.requests := List.mem_of_find?_eq_some hfr
    have hidR : request_row.id = request_id := by
      simpa [beq_iff_eq] using List.find?_some hfr
    have hfacR : some request_row.factory_id = u.factoryId := by
      simpa using hfac1
    have hmemI : item_row ∈ db.request_items := List.mem_of_find?_eq_some hfi
    have hidI : item_row.id = item_id ∧ item_row.request_id = request_id := by
      simpa [beq_iff_eq, Bool.and_eq_true] using List.find?_some hfi
    have hmemE : evidence_row ∈ db.evidence := List.mem_of_find?_eq_some hfe
    have hidE : evidence_row.id = fulfill.evidenceId := by
      simpa [beq_iff_eq] using List.find?_some hfe
    have hfacE : evidence_row.factory_id = u.factoryId := by
      simpa using hfac2
    have hmemV : version_row ∈ db.evidence_versions := List.mem_of_find?_eq_some hfv
    have hidV : version_row.id = fulfill.versionId ∧
        version_row.evidence_id = fulfill.evidenceId := by
      simpa [beq_iff_eq, Bool.and_eq_true] using List.find?_some hfv
    have hne : ∃ it ∈ db.request_items.map (updItem item_id fulfill now),
        it.request_id = request_id := by
      refine ⟨updItem item_id fulfill now item_row, List.mem_map_of_mem _ hmemI, ?_⟩
      rw [updItem_request_id]
      exact hidI.2
    simp only [fulfill_count_iff hne] at h
    split at h
    · rename_i hall
      simp only [Except.ok.injEq, Prod.mk.injEq] at h
      obtain ⟨h1, h2⟩ := h
      subst h1
      subst h2
      refine ⟨hrole, ⟨request_row, hmemR, hidR, hfacR, item_row, hmemI, hidI.1, hidI.2,
        ⟨evidence_row, hmemE, hidE, hfacE⟩, ⟨version_row, hmemV, hidV.1, hidV.2⟩, by simp⟩,
        by simp, by simp, by simp, by simp, by simp, Or.inr ⟨by simp, hall⟩, rfl⟩
    · rename_i hnall
      simp only [Except.ok.injEq, Prod.mk.injEq] at h
      obtain ⟨h1, h2⟩ := h
      subst h1
      subst h2
      refine ⟨hrole, ⟨request_row, hmemR, hidR, hfacR, item_row, hmemI, hidI.1, hidI.2,
        ⟨evidence_row, hmemE, hidE, hfacE⟩, ⟨version_row, hmemV, hidV.1, hidV.2⟩, by simp⟩,
        by simp, by simp, by simp, by simp, by simp, Or.inl ⟨by simp, hnall⟩, rfl⟩

theorem upd_keeps_fulfilled {items : List ItemRow} {item_id : Nat} {f : FulfillRequest}
    {now rid : Nat}
    (hall : ∀ it ∈ items, it.request_id = rid → it.status = "fulfilled") :
    ∀ it ∈ items.map (updItem item_id f now),
      it.request_id = rid → it.status = "fulfilled" := by
  intro it1 hmem hrid
  obtain ⟨it, hit, rfl⟩ := List.mem_map.mp hmem
  rw [updItem_status]
  rw [updItem_request_id] at hrid
  split
  · rfl
  · exact hall it hit hrid

theorem getD_sql_max_countdown (n : Nat) : (sql_max (countdown n)).getD 0 = n := by
  rw [sql_max_countdown]
  by_cases hn : n = 0 <;> simp [hn]

theorem applyOp_inv {db : DB} (op : Op) (now : Nat) (h : DBInv db) :
    DBInv (applyOp db op now) := by
  obtain ⟨⟨f1, f2, f3, f4⟩, hs, hver, hnod, hcompl, hrnod⟩ := h
  cases op with
  | opLogin request =>
    simp only [applyOp]
    cases hl : login db request now with
    | error e =>
      show DBInv db
      exact ⟨⟨f1, f2, f3, f4⟩, hs, hver, hnod, hcompl, hrnod⟩
    | ok p =>
      obtain ⟨db1, resp⟩ := p
      show DBInv db1
      obtain ⟨he, hv, hr, hi, hn, -⟩ := login_ok hl
      refine ⟨⟨?_, ?_, ?_, ?_⟩, ?_, ?_, ?_, ?_, ?_⟩
      · rw [hr, hn]
        intro r hm
        have := f1 r hm
        omega
      · rw [hi, hn]
        intro it hm
        have := f2 it hm
        omega
      · rw [he, hn]
        intro e hm
        have := f3 e hm
        omega
      · rw [hv, hn]
        intro v hm
        have := f4 v hm
        omega
      · intro r hm
        rw [hr] at hm
        rw [hi]
        exact hs r hm
      · intro eid
        unfold versionNumbers
        rw [hv]
        exact hver eid
      · unfold ItemsNodup
        rw [hi]
        exact hnod
      · intro r hm hex hall
        rw [hr] at hm
        rw [hi] at hex hall
        exact hcompl r hm hex hall
      · unfold RequestsNodup
        rw [hr]
        exact hrnod
  | opCreateEvidence evidence user =>
    simp only [applyOp]
    cases hl : create_evidence db evidence user now with
    | error e =>
      show DBInv db
      exact ⟨⟨f1, f2, f3, f4⟩, hs, hver, hnod, hcompl, hrnod⟩
    | ok p =>
      obtain ⟨db1, resp⟩ := p
      show DBInv db1
      obtain ⟨-, hr, hi, ht, he, hv, hn, -⟩ := create_evidence_ok hl
      refine ⟨⟨?_, ?_, ?_, ?_⟩, ?_, ?_, ?_, ?_, ?_⟩
      · rw [hr, hn]
        intro r hm
        have := f1 r hm
        omega
      · rw [hi, hn]
        intro it hm
        have := f2 it hm
        omega
      · rw [he, hn]
        intro e hm
        rcases List.mem_cons.mp hm with rfl | hm2
        · simp
        · have := f3 e hm2
          omega
      · rw [hv, hn]
        intro v hm
        rcases List.mem_cons.mp hm with rfl | hm2
        · simp
        · have := f4 v hm2
          omega
      · intro r hm
        rw [hr] at hm
        rw [hi]
        exact hs r hm
      · intro eid
        unfold versionNumbers
        rw [hv, versionNumbersL_cons]
        by_cases heq : db.nextId = eid
        · rw [if_pos heq]
          have hnil : versionNumbersL db.evidence_versions eid = [] := by
            refine versionNumbersL_eq_nil (fun v hm => ?_)
            have := f4 v hm
            omega
          rw [hnil]
          rfl
        · rw [if_neg heq]
          exact hver eid
      · unfold ItemsNodup
        rw [hi]
        exact hnod
      · intro r hm hex hall
        rw [hr] at hm
        rw [hi] at hex hall
        exact hcompl r hm hex hall
      · unfold RequestsNodup
        rw [hr]
        exact hrnod
  | opAddVersion evidence_id version user =>
    simp only [applyOp]
    cases hl : add_evidence_version db evidence_id version user now with
    | error e =>
      show DBInv db
      exact ⟨⟨f1, f2, f3, f4⟩, hs, hver, hnod, hcompl, hrnod⟩
    | ok p =>
      obtain ⟨db1, resp⟩ := p
      show DBInv db1
      obtain ⟨-, ⟨row, hrowm, hrowid, -⟩, hr, hi, ht, he, hv, hn, -⟩ := add_version_ok hl
      have heidlt : evidence_id < db.nextId := hrowid ▸ f3 row hrowm
      refine ⟨⟨?_, ?_, ?_, ?_⟩, ?_, ?_, ?_, ?_, ?_⟩
      · rw [hr, hn]
        intro r hm
        have := f1 r hm
        omega
      · rw [hi, hn]
        intro it hm
        have := f2 it hm
        omega
      · rw [he, hn]
        intro e hm
        have := f3 e hm
        omega
      · rw [hv, hn]
        intro v hm
        rcases List.mem_cons.mp hm with rfl | hm2
        · simpa using heidlt.trans (by omega)
        · have := f4 v hm2
          omega
      · intro r hm
        rw [hr] at hm
        rw [hi]
        exact hs r hm
      · intro eid
        unfold versionNumbers
        rw [hv, versionNumbersL_cons]
        by_cases heq : evidence_id = eid
        · subst heq
          rw [if_pos rfl]
          have hold := hver evidence_id
          unfold versionNumbers at hold
          rw [hold, List.length_cons, countdown_length]
          show ((sql_max (versionNumbers db evidence_id)).getD 0 + 1) ::
              countdown (versionNumbersL db.evidence_versions evidence_id).length =
            countdown ((versionNumbersL db.evidence_versions evidence_id).length + 1)
          unfold versionNumbers
          rw [hold]
          rw [getD_sql_max_countdown]
          rw [countdown_length]
          rfl
        · rw [if_neg heq]
          exact hver eid
      · unfold ItemsNodup
        rw [hi]
        exact hnod
      · intro r hm hex hall
        rw [hr] at hm
        rw [hi] at hex hall
        exact hcompl r hm hex hall
      · unfold RequestsNodup
        rw [hr]
        exact hrnod
  | opCreateRequest request user =>
    simp only [applyOp]
    cases hl : create_request db request user now with
    | error e =>
      show DBInv db
      exact ⟨⟨f1, f2, f3, f4⟩, hs, hver, hnod, hcompl, hrnod⟩
    | ok p =>
      obtain ⟨db1, resp⟩ := p
      show DBInv db1
      obtain ⟨-, he, hv, ht, hr, hi, hn, -⟩ := create_request_ok hl
      refine ⟨⟨?_, ?_, ?_, ?_⟩, ?_, ?_, ?_, ?_, ?_⟩
      · rw [hr, hn]
        intro r hm
        rcases List.mem_cons.mp hm with rfl | hm2
        · simp
          omega
        · have := f1 r hm2
          omega
      · rw [hi, hn]
        intro it hm
        rcases List.mem_append.mp hm with hm2 | hm2
        · have := mem_make_items hm2
          omega
        · have := f2 it hm2
          omega
      · rw [he, hn]
        intro e hm
        have := f3 e hm
        omega
      · rw [hv, hn]
        intro v hm
        have := f4 v hm
        omega
      · intro r hm
        rw [hr] at hm
        rw [hi]
        rcases List.mem_cons.mp hm with rfl | hm2
        · exact ⟨Or.inl rfl,
            fun hcomp => absurd (show ("pending" : String) = "completed" from hcomp) (by decide)⟩
        · obtain ⟨hdom, hcomp⟩ := hs r hm2
          refine ⟨hdom, fun hc it hm3 hrid => ?_⟩
          rcases List.mem_append.mp hm3 with hm4 | hm4
          · exfalso
            obtain ⟨hreq, -⟩ := mem_make_items hm4
            have := f1 r hm2
            omega
          · exact hcomp hc it hm4 hrid
      · intro eid
        unfold versionNumbers
        rw [hv]
        exact hver eid
      · unfold ItemsNodup
        rw [hi, List.map_append, List.nodup_append]
        refine ⟨make_items_ids_nodup _ _ _, hnod, ?_⟩
        intro x hx1 hx2
        obtain ⟨it1, hit1, hid1⟩ := List.mem_map.mp hx1
        obtain ⟨it2, hit2, hid2⟩ := List.mem_map.mp hx2
        obtain ⟨-, -, hge, -⟩ := mem_make_items hit1
        obtain ⟨hlt, -⟩ := f2 it2 hit2
        omega
      · intro r hm hex hall
        rw [hr] at hm
        rw [hi] at hex hall
        rcases List.mem_cons.mp hm with rfl | hm2
        · exfalso
          obtain ⟨it, hitm, hitr⟩ := hex
          have hitr2 : it.request_id = db.nextId := hitr
          rcases List.mem_append.mp hitm with hnew | hold2
          · obtain ⟨-, hstat, -, -⟩ := mem_make_items hnew
            have hful := hall it hitm hitr
            rw [hstat] at hful
            exact absurd hful (by decide)
          · obtain ⟨-, hlt⟩ := f2 it hold2
            omega
        · have hr2 := f1 r hm2
          obtain ⟨it, hitm, hitr⟩ := hex
          rcases List.mem_append.mp hitm with hnew | hold2
          · exfalso
            obtain ⟨hreq, -, -, -⟩ := mem_make_items hnew
            omega
          · refine hcompl r hm2 ⟨it, hold2, hitr⟩ ?_
            intro it2 hit2 hrid2
            exact hall it2 (List.mem_append.mpr (Or.inr hit2)) hrid2
      · unfold RequestsNodup
        rw [hr, List.map_cons, List.nodup_cons]
        refine ⟨?_, hrnod⟩
        intro hmem
        obtain ⟨r0, hm0, hid0⟩ := List.mem_map.mp hmem
        have hid1 : r0.id = db.nextId := hid0
        have := f1 r0 hm0
        omega
  | opFulfill request_id item_id fulfill user =>
    simp only [applyOp]
    cases hl : fulfill_request_item db request_id item_id fulfill user now with
    | error e =>
      show DBInv db
      exact ⟨⟨f1, f2, f3, f4⟩, hs, hver, hnod, hcompl, hrnod⟩
    | ok p =>
      obtain ⟨db1, resp⟩ := p
      show DBInv db1
      obtain ⟨-, ⟨request_row, hmemR, hidR, -, item_row, hmemI, hidI1, hidI2, -, -, -⟩,
        he, hv, ht, hn, hi, hreqs, -⟩ := fulfill_ok hl
      refine ⟨⟨?_, ?_, ?_, ?_⟩, ?_, ?_, ?_, ?_, ?_⟩
      · rcases hreqs with ⟨hr, -⟩ | ⟨hr, -⟩
        · rw [hr, hn]
          exact f1
        · rw [hr, hn]
          intro r hm
          obtain ⟨r0, hm0, rfl⟩ := List.mem_map.mp hm
          rw [completeReq_id]
          exact f1 r0 hm0
      · rw [hi, hn]
        intro it hm
        obtain ⟨it0, hm0, rfl⟩ := List.mem_map.mp hm
        rw [updItem_id, updItem_request_id]
        exact f2 it0 hm0
      · rw [he, hn]
        exact f3
      · rw [hv, hn]
        exact f4
      · rcases hreqs with ⟨hr, hnall⟩ | ⟨hr, hall⟩
        · intro r hm
          rw [hr] at hm
          obtain ⟨hdom, hcomp⟩ := hs r hm
          refine ⟨hdom, fun hc => ?_⟩
          rw [hi]
          exact upd_keeps_fulfilled (hcomp hc)
        · intro r1 hm
          rw [hr] at hm
          obtain ⟨r0, hm0, rfl⟩ := List.mem_map.mp hm
          obtain ⟨hdom, hcomp⟩ := hs r0 hm0
          by_cases hrid : r0.id = request_id
          · constructor
            · rw [completeReq_status, if_pos hrid]
              exact Or.inr rfl
            · intro hc it hm2 hrid2
              rw [hi] at hm2
              rw [completeReq_id, hrid] at hrid2
              exact hall it hm2 hrid2
          · constructor
            · rw [completeReq_status, if_neg hrid]
              exact hdom
            · intro hc it hm2 hrid2
              rw [hi] at hm2
              rw [completeReq_id] at hrid2
              rw [completeReq_status, if_neg hrid] at hc
              exact upd_keeps_fulfilled (hcomp hc) it hm2 hrid2
      · intro eid
        unfold versionNumbers
        rw [hv]
        exact hver eid
      · unfold ItemsNodup
        rw [hi, List.map_map]
        have heq2 : db.request_items.map ((fun it => it.id) ∘ updItem item_id fulfill now)
            = db.request_items.map (fun it => it.id) :=
          List.map_eq_map_iff.mpr (fun a _ => updItem_id item_id fulfill now a)
        rw [heq2]
        exact hnod
      · have huniq : ∀ a ∈ db.request_items, a.id = item_id → a = item_row :=
          fun a ha hid2 =>
            nodup_map_id_inj hnod a ha item_row hmemI (by rw [hid2, hidI1])
        have hfix : ∀ a ∈ db.request_items, a.request_id ≠ request_id →
            updItem item_id fulfill now a = a := by
          intro a ha hne2
          unfold updItem
          rw [if_neg]
          intro hid2
          exact hne2 (by rw [huniq a ha hid2]; exact hidI2)
        have htransE : ∀ rid2, (∃ it ∈ db.request_items.map (updItem item_id fulfill now),
              it.request_id = rid2) → ∃ it ∈ db.request_items, it.request_id = rid2 := by
          intro rid2 hexx
          obtain ⟨it1, hm1, hr1⟩ := hexx
          obtain ⟨it0, hm0, rfl⟩ := List.mem_map.mp hm1
          rw [updItem_request_id] at hr1
          exact ⟨it0, hm0, hr1⟩
        have htransA : ∀ rid2, rid2 ≠ request_id →
            (∀ it ∈ db.request_items.map (updItem item_id fulfill now),
              it.request_id = rid2 → it.status = "fulfilled") →
            ∀ it ∈ db.request_items, it.request_id = rid2 → it.status = "fulfilled" := by
          intro rid2 hne2 hpost it0 hm0 hr0
          have hmem1 : updItem item_id fulfill now it0
              ∈ db.request_items.map (updItem item_id fulfill now) :=
            List.mem_map_of_mem _ hm0
          have hpf := hpost _ hmem1 (by rw [updItem_request_id]; exact hr0)
          rw [hfix it0 hm0 (by rw [hr0]; exact hne2)] at hpf
          exact hpf
        rcases hreqs with ⟨hr, hnall⟩ | ⟨hr, hall2⟩
        · intro r hm hex hall
          rw [hr] at hm
          rw [hi] at hex hall
          by_cases hrid : r.id = request_id
          · exfalso
            apply hnall
            rw [hrid] at hall
            exact hall
          · exact hcompl r hm (htransE _ hex) (htransA _ hrid hall)
        · intro r1 hm hex hall
          rw [hr] at hm
          obtain ⟨r0, hm0, rfl⟩ := List.mem_map.mp hm
          rw [hi] at hex hall
          rw [completeReq_id] at hex hall
          by_cases hrid : r0.id = request_id
          · rw [completeReq_status, if_pos hrid]
          · rw [completeReq_status, if_neg hrid]
            exact hcompl r0 hm0 (htransE _ hex) (htransA _ hrid hall)
      · unfold RequestsNodup
        rcases hreqs with ⟨hr, -⟩ | ⟨hr, -⟩
        · rw [hr]
          exact hrnod
        · rw [hr, List.map_map]
          have heq3 : db.requests.map ((fun r => r.id) ∘ completeReq request_id)
              = db.requests.map (fun r => r.id) :=
            List.map_eq_map_iff.mpr (fun a _ => completeReq_id request_id a)
          rw [heq3]
          exact hrnod

theorem initDB_inv : DBInv initDB := by
  refine ⟨⟨?_, ?_, ?_, ?_⟩, ?_, ?_, ?_, ?_, ?_⟩
  · intro x hm
    cases hm
  · intro x hm
    cases hm
  · intro x hm
    cases hm
  · intro x hm
    cases hm
  · intro x hm
    cases hm
  · intro eid
    rfl
  · exact List.nodup_nil
  · intro r hm
    cases hm
  · exact List.nodup_nil

theorem reachable_inv {db : DB} (h : Reachable db) : DBInv db := by
  induction h with
  | init => exact initDB_inv
  | step db op now h ih => exact applyOp_inv op now ih

theorem fulfilled_persists_step {db : DB} {iid : Nat} (op : Op) (now : Nat)
    (hlt : iid < db.nextId)
    (hf : ∀ it ∈ db.request_items, it.id = iid → it.status = "fulfilled") :
    iid < (applyOp db op now).nextId ∧
    ∀ it ∈ (applyOp db op now).request_items, it.id = iid → it.status = "fulfilled" := by
  cases op with
  | opLogin request =>
    simp only [applyOp]
    cases hl : login db request now with
    | error e => exact ⟨hlt, hf⟩
    | ok p =>
      obtain ⟨db1, resp⟩ := p
      show iid < db1.nextId ∧ ∀ it ∈ db1.request_items, it.id = iid → it.status = "fulfilled"
      obtain ⟨-, -, -, hi, hn, -⟩ := login_ok hl
      rw [hi, hn]
      exact ⟨by omega, hf⟩
  | opCreateEvidence evidence user =>
    simp only [applyOp]
    cases hl : create_evidence db evidence user now with
    | error e => exact ⟨hlt, hf⟩
    | ok p =>
      obtain ⟨db1, resp⟩ := p
      show iid < db1.nextId ∧ ∀ it ∈ db1.request_items, it.id = iid → it.status = "fulfilled"
      obtain ⟨-, -, hi, -, -, -, hn, -⟩ := create_evidence_ok hl
      rw [hi, hn]
      exact ⟨by omega, hf⟩
  | opAddVersion evidence_id version user =>
    simp only [applyOp]
    cases hl : add_evidence_version db evidence_id version user now with
    | error e => exact ⟨hlt, hf⟩
    | ok p =>
      obtain ⟨db1, resp⟩ := p
      show iid < db1.nextId ∧ ∀ it ∈ db1.request_items, it.id = iid → it.status = "fulfilled"
      obtain ⟨-, -, -, hi, -, -, -, hn, -⟩ := add_version_ok hl
      rw [hi, hn]
      exact ⟨by omega, hf⟩
  | opCreateRequest request user =>
    simp only [applyOp]
    cases hl : create_request db request user now with
    | error e => exact ⟨hlt, hf⟩
    | ok p =>
      obtain ⟨db1, resp⟩ := p
      show iid < db1.nextId ∧ ∀ it ∈ db1.request_items, it.id = iid → it.status = "fulfilled"
      obtain ⟨-, -, -, -, -, hi, hn, -⟩ := create_request_ok hl
      rw [hi, hn]
      refine ⟨by omega, ?_⟩
      intro it hm hid
      rcases List.mem_append.mp hm with hnew | hold2
      · obtain ⟨-, -, hge, -⟩ := mem_make_items hnew
        omega
      · exact hf it hold2 hid
  | opFulfill request_id item_id fulfill user =>
    simp only [applyOp]
    cases hl : fulfill_request_item db request_id item_id fulfill user now with
    | error e => exact ⟨hlt, hf⟩
    | ok p =>
      obtain ⟨db1, resp⟩ := p
      show iid < db1.nextId ∧ ∀ it ∈ db1.request_items, it.id = iid → it.status = "fulfilled"
      obtain ⟨-, -, -, -, -, hn, hi, -, -⟩ := fulfill_ok hl
      rw [hi, hn]
      refine ⟨hlt, ?_⟩
      intro it1 hm hid
      obtain ⟨it0, hm0, rfl⟩ := List.mem_map.mp hm
      rw [updItem_id] at hid
      rw [updItem_status]
      split
      · rfl
      · exact hf it0 hm0 hid

theorem completed_persists_step {db : DB} {rid : Nat} (op : Op) (now : Nat)
    (hlt : rid < db.nextId)
    (hf : ∀ r ∈ db.requests, r.id = rid → r.status = "completed") :
    rid < (applyOp db op now).nextId ∧
    ∀ r ∈ (applyOp db op now).requests, r.id = rid → r.status = "completed" := by
  cases op with
  | opLogin request =>
    simp only [applyOp]
    cases hl : login db request now with
    | error e => exact ⟨hlt, hf⟩
    | ok p =>
      obtain ⟨db1, resp⟩ := p
      show rid < db1.nextId ∧ ∀ r ∈ db1.requests, r.id = rid → r.status = "completed"
      obtain ⟨-, -, hr, -, hn, -⟩ := login_ok hl
      rw [hr, hn]
      exact ⟨by omega, hf⟩
  | opCreateEvidence evidence user =>
    simp only [applyOp]
    cases hl : create_evidence db evidence user now with
    | error e => exact ⟨hlt, hf⟩
    | ok p =>
      obtain ⟨db1, resp⟩ := p
      show rid < db1.nextId ∧ ∀ r ∈ db1.requests, r.id = rid → r.status = "completed"
      obtain ⟨-, hr, -, -, -, -, hn, -⟩ := create_evidence_ok hl
      rw [hr, hn]
      exact ⟨by omega, hf⟩
  | opAddVersion evidence_id version user =>
    simp only [applyOp]
    cases hl : add_evidence_version db evidence_id version user now with
    | error e => exact ⟨hlt, hf⟩
    | ok p =>
      obtain ⟨db1, resp⟩ := p
      show rid < db1.nextId ∧ ∀ r ∈ db1.requests, r.id = rid → r.status = "completed"
      obtain ⟨-, -, hr, -, -, -, -, hn, -⟩ := add_version_ok hl
      rw [hr, hn]
      exact ⟨by omega, hf⟩
  | opCreateRequest request user =>
    simp only [applyOp]
    cases hl : create_request db request user now with
    | error e => exact ⟨hlt, hf⟩
    | ok p =>
      obtain ⟨db1, resp⟩ := p
      show rid < db1.nextId ∧ ∀ r ∈ db1.requests, r.id = rid → r.status = "completed"
      obtain ⟨-, -, -, -, hr, -, hn, -⟩ := create_request_ok hl
      rw [hr, hn]
      refine ⟨by omega, ?_⟩
      intro r hm hid
      rcases List.mem_cons.mp hm with rfl | hm2
      · exfalso
        have hid2 : db.nextId = rid := hid
        omega
      · exact hf r hm2 hid
  | opFulfill request_id item_id fulfill user =>
    simp only [applyOp]
    cases hl : fulfill_request_item db request_id item_id fulfill user now with
    | error e => exact ⟨hlt, hf⟩
    | ok p =>
      obtain ⟨db1, resp⟩ := p
      show rid < db1.nextId ∧ ∀ r ∈ db1.requests, r.id = rid → r.status = "completed"
      obtain ⟨-, -, -, -, -, hn, -, hreqs, -⟩ := fulfill_ok hl
      rw [hn]
      refine ⟨hlt, ?_⟩
      rcases hreqs with ⟨hr, -⟩ | ⟨hr, -⟩
      · rw [hr]
        exact hf
      · rw [hr]
        intro r1 hm hid
        obtain ⟨r0, hm0, rfl⟩ := List.mem_map.mp hm
        rw [completeReq_id] at hid
        rw [completeReq_status]
        split
        · rfl
        · exact hf r0 hm0 hid

theorem emptyPending_persists_step {db : DB} {rid : Nat} (op : Op) (now : Nat)
    (hlt : rid < db.nextId)
    (hp : ∀ r ∈ db.requests, r.id = rid → r.status = "pending")
    (hno : ∀ it ∈ db.request_items, it.request_id ≠ rid) :
    rid < (applyOp db op now).nextId ∧
    (∀ r ∈ (applyOp db op now).requests, r.id = rid → r.status = "pending") ∧
    ∀ it ∈ (applyOp db op now).request_items, it.request_id ≠ rid := by
  cases op with
  | opLogin request =>
    simp only [applyOp]
    cases hl : login db request now with
    | error e => exact ⟨hlt, hp, hno⟩
    | ok p =>
      obtain ⟨db1, resp⟩ := p
      show rid < db1.nextId ∧ (∀ r ∈ db1.requests, r.id = rid → r.status = "pending") ∧
        ∀ it ∈ db1.request_items, it.request_id ≠ rid
      obtain ⟨-, -, hr, hi, hn, -⟩ := login_ok hl
      rw [hr, hi, hn]
      exact ⟨by omega, hp, hno⟩
  | opCreateEvidence evidence user =>
    simp only [applyOp]
    cases hl : create_evidence db evidence user now with
    | error e => exact ⟨hlt, hp, hno⟩
    | ok p =>
      obtain ⟨db1, resp⟩ := p
      show rid < db1.nextId ∧ (∀ r ∈ db1.requests, r.id = rid → r.status = "pending") ∧
        ∀ it ∈ db1.request_items, it.request_id ≠ rid
      obtain ⟨-, hr, hi, -, -, -, hn, -⟩ := create_evidence_ok hl
      rw [hr, hi, hn]
      exact ⟨by omega, hp, hno⟩
  | opAddVersion evidence_id version user =>
    simp only [applyOp]
    cases hl : add_evidence_version db evidence_id version user now with
    | error e => exact ⟨hlt, hp, hno⟩
    | ok p =>
      obtain ⟨db1, resp⟩ := p
      show rid < db1.nextId ∧ (∀ r ∈ db1.requests, r.id = rid → r.status = "pending") ∧
        ∀ it ∈ db1.request_items, it.request_id ≠ rid
      obtain ⟨-, -, hr, hi, -, -, -, hn, -⟩ := add_version_ok hl
      rw [hr, hi, hn]
      exact ⟨by omega, hp, hno⟩
  | opCreateRequest request user =>
    simp only [applyOp]
    cases hl : create_request db request user now with
    | error e => exact ⟨hlt, hp, hno⟩
    | ok p =>
      obtain ⟨db1, resp⟩ := p
      show rid < db1.nextId ∧ (∀ r ∈ db1.requests, r.id = rid → r.status = "pending") ∧
        ∀ it ∈ db1.request_items, it.request_id ≠ rid
      obtain ⟨-, -, -, -, hr, hi, hn, -⟩ := create_request_ok hl
      rw [hr, hi, hn]
      refine ⟨by omega, ?_, ?_⟩
      · intro r hm hid
        rcases List.mem_cons.mp hm with rfl | hm2
        · rfl
        · exact hp r hm2 hid
      · intro it hm
        rcases List.mem_append.mp hm with hnew | hold2
        · obtain ⟨hreq, -, -, -⟩ := mem_make_items hnew
          rw [hreq]
          omega
        · exact hno it hold2
  | opFulfill request_id item_id fulfill user =>
    simp only [applyOp]
    cases hl : fulfill_request_item db request_id item_id fulfill user now with
    | error e => exact ⟨hlt, hp, hno⟩
    | ok p =>
      obtain ⟨db1, resp⟩ := p
      show rid < db1.nextId ∧ (∀ r ∈ db1.requests, r.id = rid → r.status = "pending") ∧
        ∀ it ∈ db1.request_items, it.request_id ≠ rid
      obtain ⟨-, ⟨request_row, -, -, -, item_row, hmemI, -, hidI2, -, -, -⟩,
        -, -, -, hn, hi, hreqs, -⟩ := fulfill_ok hl
      have hrne : request_id ≠ rid := by
        intro hcontra
        exact hno item_row hmemI (hcontra ▸ hidI2)
      rw [hn, hi]
      refine ⟨hlt, ?_, ?_⟩
      · rcases hreqs with ⟨hr, -⟩ | ⟨hr, -⟩
        · rw [hr]
          exact hp
        · rw [hr]
          intro r1 hm hid
          obtain ⟨r0, hm0, rfl⟩ := List.mem_map.mp hm
          rw [completeReq_id] at hid
          rw [completeReq_status, if_neg (by omega : ¬ r0.id = request_id)]
          exact hp r0 hm0 hid
      · intro it1 hm
        obtain ⟨it0, hm0, rfl⟩ := List.mem_map.mp hm
        rw [updItem_request_id]
        exact hno it0 hm0

theorem fulfilled_persists {db : DB} {iid : Nat} (l : List (Op × Nat))
    (hlt : iid < db.nextId)
    (hf : ∀ it ∈ db.request_items, it.id = iid → it.status = "fulfilled") :
    ∀ it ∈ (applyOps db l).request_items, it.id = iid → it.status = "fulfilled" := by
  induction l generalizing db with
  | nil => exact hf
  | cons p l ih =>
    obtain ⟨op, now⟩ := p
    obtain ⟨h1, h2⟩ := fulfilled_persists_step op now hlt hf
    exact ih h1 h2

theorem completed_persists {db : DB} {rid : Nat} (l : List (Op × Nat))
    (hlt : rid < db.nextId)
    (hf : ∀ r ∈ db.requests, r.id = rid → r.status = "completed") :
    ∀ r ∈ (applyOps db l).requests, r.id = rid → r.status = "completed" := by
  induction l generalizing db with
  | nil => exact hf
  | cons p l ih =>
    obtain ⟨op, now⟩ := p
    obtain ⟨h1, h2⟩ := completed_persists_step op now hlt hf
    exact ih h1 h2

theorem emptyPending_persists {db : DB} {rid : Nat} (l : List (Op × Nat))
    (hlt : rid < db.nextId)
    (hp : ∀ r ∈ db.requests, r.id = rid → r.status = "pending")
    (hno : ∀ it ∈ db.request_items, it.request_id ≠ rid) :
    (∀ r ∈ (applyOps db l).requests, r.id = rid → r.status = "pending") ∧
    ∀ it ∈ (applyOps db l).request_items, it.request_id ≠ rid := by
  induction l generalizing db with
  | nil => exact ⟨hp, hno⟩
  | cons p l ih =>
    obtain ⟨op, now⟩ := p
    obtain ⟨h1, h2, h3⟩ := emptyPending_persists_step op now hlt hp hno
    exact ih h1 h2 h3

theorem reachable_applyOps {db : DB} (h : Reachable db) (l : List (Op × Nat)) :
    Reachable (applyOps db l) := by
  induction l generalizing db with
  | nil => exact h
  | cons p l ih =>
    obtain ⟨op, now⟩ := p
    exact ih (Reachable.step db op now h)

theorem require_role_val {role : Role} {user : UserInfo} (h : user.role = role.val) :
    require_role role user = .ok user := by
  unfold require_role
  rw [if_neg (by simp [h])]

theorem mem_insertDesc {x y : RequestRow} {l : List RequestRow} :
    y ∈ insertDesc x l ↔ y = x ∨ y ∈ l := by
  induction l with
  | nil => simp [insertDesc]
  | cons z zs ih =>
    unfold insertDesc
    split
    · rw [List.mem_cons, ih, List.mem_cons]
      tauto
    · rw [List.mem_cons]

theorem mem_sortDesc {y : RequestRow} {l : List RequestRow} : y ∈ sortDesc l ↔ y ∈ l := by
  induction l with
  | nil => simp [sortDesc]
  | cons x xs ih =>
    unfold sortDesc
    rw [mem_insertDesc, ih, List.mem_cons]


/-- C5: atomicity of fulfillItem.  Whenever any of the validation checks of
fulfill_request_item fails (the handler raises an HTTPException), the
operation leaves the persisted state exactly as it was: the items, the
requests and the audit log are unchanged, because get_db rolls the
transaction back and no partial write survives. -/
theorem c5_fulfill_atomic :
    ∀ (db : DB) (request_id item_id : Nat) (fulfill : FulfillRequest) (user : UserInfo)
      (now : Nat) (e : HTTPException),
      fulfill_request_item db request_id item_id fulfill user now = .error e →
      applyOp db (.opFulfill request_id item_id fulfill user) now = db ∧
      (applyOp db (.opFulfill request_id item_id fulfill user) now).request_items
        = db.request_items ∧
      (applyOp db (.opFulfill request_id item_id fulfill user) now).requests
        = db.requests ∧
      (applyOp db (.opFulfill request_id item_id fulfill user) now).audit_log
        = db.audit_log := by
  intro db request_id item_id fulfill user now e h
  simp [applyOp, h]

/-- C5 witness: a fulfillment naming a request id that does not exist fails
and leaves the concrete scenario state untouched. -/
theorem c5_fulfill_atomic_witness :
    applyOp scenarioDB (.opFulfill 99 1 ⟨2, 3⟩ factoryFred) 30 = scenarioDB ∧
    (applyOp scenarioDB (.opFulfill 99 1 ⟨2, 3⟩ factoryFred) 30).audit_log
      = scenarioDB.audit_log :=
  ⟨(c5_fulfill_atomic scenarioDB 99 1 ⟨2, 3⟩ factoryFred 30
      ⟨404, "Request not found"⟩ (by rfl)).1,
   (c5_fulfill_atomic scenarioDB 99 1 ⟨2, 3⟩ factoryFred 30
      ⟨404, "Request not found"⟩ (by rfl)).2.2.2⟩

/-- C7: fulfill_request_item validates in the fixed source order with a
distinct error per step: missing request, then request ownership, then
missing item, then missing evidence, then evidence ownership, then missing
version; whenever an earlier check fires its error is returned and no later
check is reached. -/
theorem c7_fulfill_validation_order :
    ∀ (db : DB) (request_id item_id : Nat) (fulfill : FulfillRequest) (user : UserInfo)
      (now : Nat), user.role = "factory" →
    (db.requests.find? (fun r => r.id == request_id) = none →
      fulfill_request_item db request_id item_id fulfill user now =
        .error ⟨404, "Request not found"⟩) ∧
    (∀ rrow, db.requests.find? (fun r => r.id == request_id) = some rrow →
      (some rrow.factory_id : Option String) ≠ user.factoryId →
      fulfill_request_item db request_id item_id fulfill user now =
        .error ⟨403, "Cannot fulfill other factory's requests"⟩) ∧
    (∀ rrow, db.requests.find? (fun r => r.id == request_id) = some rrow →
      (some rrow.factory_id : Option String) = user.factoryId →
      db.request_items.find?
        (fun it => it.id == item_id && it.request_id == request_id) = none →
      fulfill_request_item db request_id item_id fulfill user now =
        .error ⟨404, "Request item not found"⟩) ∧
    (∀ rrow irow, db.requests.find? (fun r => r.id == request_id) = some rrow →
      (some rrow.factory_id : Option String) = user.factoryId →
      db.request_items.find?
        (fun it => it.id == item_id && it.request_id == request_id) = some irow →
      db.evidence.find? (fun e => e.id == fulfill.evidenceId) = none →
      fulfill_request_item db request_id item_id fulfill user now =
        .error ⟨404, "Evidence not found"⟩) ∧
    (∀ rrow irow erow, db.requests.find? (fun r => r.id == request_id) = some rrow →
      (some rrow.factory_id : Option String) = user.factoryId →
      db.request_items.find?
        (fun it => it.id == item_id && it.request_id == request_id) = some irow →
      db.evidence.find? (fun e => e.id == fulfill.evidenceId) = some erow →
      erow.factory_id ≠ user.factoryId →
      fulfill_request_item db request_id item_id fulfill user now =
        .error ⟨403, "Cannot use other factory's evidence"⟩) ∧
    (∀ rrow irow erow, db.requests.find? (fun r => r.id == request_id) = some rrow →
      (some rrow.factory_id : Option String) = user.factoryId →
      db.request_items.find?
        (fun it => it.id == item_id && it.request_id == request_id) = some irow →
      db.evidence.find? (fun e => e.id == fulfill.evidenceId) = some erow →
      erow.factory_id = user.factoryId →
      db.evidence_versions.find?
        (fun v => v.id == fulfill.versionId && v.evidence_id == fulfill.evidenceId) = none →
      fulfill_request_item db request_id item_id fulfill user now =
        .error ⟨404, "Evidence version not found"⟩) := by
  intro db request_id item_id fulfill user now hrole
  have hrr : require_role Role.factory user = .ok user := require_role_val hrole
  refine ⟨?_, ?_, ?_, ?_, ?_, ?_⟩
  · intro hfr
    rw [fulfill_request_item, hrr]
    simp only [hfr]
  · intro rrow hfr hfac
    rw [fulfill_request_item, hrr]
    simp only [hfr]
    rw [if_pos hfac]
  · intro rrow hfr hfac hfi
    rw [fulfill_request_item, hrr]
    simp only [hfr]
    rw [if_neg (by simp [hfac])]
    simp only [hfi]
  · intro rrow irow hfr hfac hfi hfe
    rw [fulfill_request_item, hrr]
    simp only [hfr]
    rw [if_neg (by simp [hfac])]
    simp only [hfi, hfe]
  · intro rrow irow erow hfr hfac hfi hfe hface
    rw [fulfill_request_item, hrr]
    simp only [hfr]
    rw [if_neg (by simp [hfac])]
    simp only [hfi, hfe]
    rw [if_pos hface]
  · intro rrow irow erow hfr hfac hfi hfe hface hfv
    rw [fulfill_request_item, hrr]
    simp only [hfr]
    rw [if_neg (by simp [hfac])]
    simp only [hfi, hfe]
    rw [if_neg (by simp [hface])]
    simp only [hfv]

/-- C7 witness: on the concrete scenario state, naming an unknown request
returns the missing request error, and naming an unknown version under an
owned evidence passes the four earlier checks and returns the missing
version error. -/
theorem c7_fulfill_validation_order_witness :
    fulfill_request_item scenarioDB 99 1 ⟨2, 3⟩ factoryFred 30 =
      .error ⟨404, "Request not found"⟩ ∧
    fulfill_request_item scenarioDB 0 1 ⟨2, 99⟩ factoryFred 30 =
      .error ⟨404, "Evidence version not found"⟩ :=
  ⟨(c7_fulfill_validation_order scenarioDB 99 1 ⟨2, 3⟩ factoryFred 30 rfl).1 (by decide),
   (c7_fulfill_validation_order scenarioDB 0 1 ⟨2, 99⟩ factoryFred 30 rfl).2.2.2.2.2
     ⟨0, "bob", "F001", "t", "completed", 1⟩
     ⟨1, 0, "Test Report", "fulfilled", some 2, some 3, some 10⟩
     ⟨2, some "F001", "doc", "Test Report", 2⟩
     (by decide) (by decide) (by decide) (by decide) (by decide) (by decide)⟩

/-- C10: the owning factory of an evidence row created by create_evidence is
the factoryId of the authenticated session; the request body (name, docType,
expiry, notes) carries no factory identifier at all, so the created row is
owned by the session factory for every input. -/
theorem c10_evidence_owner_from_session :
    ∀ (db : DB) (evidence : EvidenceCreate) (user : UserInfo) (now : Nat)
      (db1 : DB) (resp : EvidenceResponse),
      create_evidence db evidence user now = .ok (db1, resp) →
      db1.evidence =
        { id := resp.evidenceId, factory_id := user.factoryId, name := evidence.name,
          doc_type := evidence.docType, created_at := now } :: db.evidence := by
  intro db evidence user now db1 resp h
  obtain ⟨-, -, -, -, hev, -, -, -, hresp⟩ := create_evidence_ok h
  subst hresp
  exact hev

/-- C10 witness: the concrete evidence created by factoryFred is owned by
factory F001, the factory of the session. -/
theorem c10_evidence_owner_from_session_witness :
    dbEv.evidence = [⟨0, some "F001", "doc", "Test", 2⟩] :=
  c10_evidence_owner_from_session initDB ⟨"doc", "Test", none, none⟩ factoryFred 2
    dbEv ⟨0, 1⟩ (by rfl)

/-- C6 counterexample: the claim says resolution already fails when the
current time equals expiresAt.  In the code the expiry test is
expires_at < now, so at exactly the expiry instant (token T0 of dbLogin
expires at 86400) resolution still succeeds. -/
theorem c6_refuted :
    dbLogin.auth_tokens = [⟨"T0", "u", "buyer", none, 0, 86400⟩] ∧
    get_current_user dbLogin (some "Bearer T0") 86400 =
      .ok ⟨"u", "buyer", none⟩ :=
  ⟨rfl, rfl⟩

/-- C6 (amended): resolving a bearer token that is on record succeeds if and
only if the current time is at most the expiry instant: it succeeds whenever
now is less than or equal to expiresAt (including exactly at expiresAt), and
fails with the 401 expired error exactly when now is strictly greater. -/
theorem c6_token_expiry :
    ∀ (db : DB) (a tok : String) (row : TokenRow) (now : Nat),
      (truthyOpt (some a) && pyStartsWith a "Bearer ") = true →
      (pySplitSpace a).getD 1 "" = tok →
      db.auth_tokens.find? (fun t => t.token == tok) = some row →
      (now ≤ row.expires_at →
        get_current_user db (some a) now = .ok ⟨row.user_id, row.role, row.factory_id⟩) ∧
      (row.expires_at < now →
        get_current_user db (some a) now = .error ⟨401, "Token expired"⟩) := by
  intro db a tok row now hdr htok hfind
  constructor
  · intro hle
    rw [get_current_user]
    simp only [hdr, htok, hfind]
    rw [if_neg (by omega : ¬ row.expires_at < now)]
    simp
  · intro hlt
    rw [get_current_user]
    simp only [hdr, htok, hfind]
    rw [if_pos hlt]
    simp

/-- C6 witness: token T0 of dbLogin expires at 86400; resolution succeeds at
86400 and fails with the expired error at 86401. -/
theorem c6_token_expiry_witness :
    get_current_user dbLogin (some "Bearer T0") 86400 = .ok ⟨"u", "buyer", none⟩ ∧
    get_current_user dbLogin (some "Bearer T0") 86401 =
      .error ⟨401, "Token expired"⟩ :=
  ⟨(c6_token_expiry dbLogin "Bearer T0" "T0" ⟨"T0", "u", "buyer", none, 0, 86400⟩ 86400
      (by decide) (by decide) (by decide)).1 (by decide),
   (c6_token_expiry dbLogin "Bearer T0" "T0" ⟨"T0", "u", "buyer", none, 0, 86400⟩ 86401
      (by decide) (by decide) (by decide)).2 (by decide)⟩

/-- C4: cross-factory isolation.  For two distinct factories F1 and F2, a
factory session bound to F2 gets the 403 ownership error from
add_evidence_version on F1-owned evidence, from fulfill_request_item on an
F1-owned request, and from fulfill_request_item naming F1-owned evidence
even on an own request; and the factory request listing for F2 never
contains a request whose factory is F1. -/
theorem c4_cross_factory_isolation :
    ∀ (F1 F2 : String) (user : UserInfo), F1 ≠ F2 →
      user.role = "factory" → user.factoryId = some F2 →
    (∀ (db : DB) (evidence_id : Nat) (version : VersionCreate) (now : Nat)
        (row : EvidenceRow),
      db.evidence.find? (fun e => e.id == evidence_id) = some row →
      row.factory_id = some F1 →
      add_evidence_version db evidence_id version user now =
        .error ⟨403, "Cannot add version to other factory's evidence"⟩) ∧
    (∀ (db : DB) (request_id item_id : Nat) (fulfill : FulfillRequest) (now : Nat)
        (rrow : RequestRow),
      db.requests.find? (fun r => r.id == request_id) = some rrow →
      rrow.factory_id = F1 →
      fulfill_request_item db request_id item_id fulfill user now =
        .error ⟨403, "Cannot fulfill other factory's requests"⟩) ∧
    (∀ (db : DB) (request_id item_id : Nat) (fulfill : FulfillRequest) (now : Nat)
        (rrow : RequestRow) (irow : ItemRow) (erow : EvidenceRow),
      db.requests.find? (fun r => r.id == request_id) = some rrow →
      rrow.factory_id = F2 →
      db.request_items.find?
        (fun it => it.id == item_id && it.request_id == request_id) = some irow →
      db.evidence.find? (fun e => e.id == fulfill.evidenceId) = some erow →
      erow.factory_id = some F1 →
      fulfill_request_item db request_id item_id fulfill user now =
        .error ⟨403, "Cannot use other factory's evidence"⟩) ∧
    (∀ (db : DB) (l : List RequestOut),
      get_factory_requests db user = .ok l → ∀ out ∈ l, out.factoryId ≠ F1) := by
  intro F1 F2 user hne hrole huf
  have hrr : require_role Role.factory user = .ok user := require_role_val hrole
  refine ⟨?_, ?_, ?_, ?_⟩
  · intro db evidence_id version now row hfind hrowF
    rw [add_evidence_version, hrr]
    simp only [hfind]
    rw [if_pos (by rw [hrowF, huf]; simp only [ne_eq, Option.some.injEq]; exact hne)]
  · intro db request_id item_id fulfill now rrow hfind hrowF
    rw [fulfill_request_item, hrr]
    simp only [hfind]
    rw [if_pos (by rw [hrowF, huf]; simp only [ne_eq, Option.some.injEq]; exact hne)]
  · intro db request_id item_id fulfill now rrow irow erow hfr hrF2 hfi hfe heF1
    rw [fulfill_request_item, hrr]
    simp only [hfr]
    rw [if_neg (by rw [hrF2, huf]; simp)]
    simp only [hfi, hfe]
    rw [if_pos (by rw [heF1, huf]; simp only [ne_eq, Option.some.injEq]; exact hne)]
  · intro db l hok out hmem
    rw [get_factory_requests, hrr] at hok
    simp only [Except.ok.injEq] at hok
    subst hok
    obtain ⟨row, hrow, rfl⟩ := List.mem_map.mp hmem
    rw [mem_sortDesc] at hrow
    obtain ⟨-, hfac⟩ := List.mem_filter.mp hrow
    have h5 : user.factoryId = some row.factory_id := by
      simpa [beq_iff_eq] using hfac
    rw [huf] at h5
    have h6 : F2 = row.factory_id := Option.some.inj h5
    show row.factory_id ≠ F1
    rw [← h6]
    exact fun hc => hne hc.symm

/-- C4 witness: the F002 session of factoryGina is refused with 403 when it
adds a version to F001-owned evidence 2 of the scenario, and when it tries to
fulfill an item of the F001-owned request 0. -/
theorem c4_cross_factory_isolation_witness :
    add_evidence_version scenarioDB 2 ⟨none, none⟩ factoryGina 30 =
      .error ⟨403, "Cannot add version to other factory's evidence"⟩ ∧
    fulfill_request_item scenarioDB 0 1 ⟨2, 3⟩ factoryGina 30 =
      .error ⟨403, "Cannot fulfill other factory's requests"⟩ :=
  ⟨(c4_cross_factory_isolation "F001" "F002" factoryGina (by decide) rfl rfl).1
     scenarioDB 2 ⟨none, none⟩ 30 ⟨2, some "F001", "doc", "Test Report", 2⟩
     (by decide) (by decide),
   (c4_cross_factory_isolation "F001" "F002" factoryGina (by decide) rfl rfl).2.1
     scenarioDB 0 1 ⟨2, 3⟩ 30 ⟨0, "bob", "F001", "t", "completed", 1⟩
     (by decide) (by decide)⟩

/-- C1 counterexample: after the scenario run item 1 is fulfilled with
evidence 2, version 3, at time 10; a second fulfill_request_item on the same
already-fulfilled item succeeds and overwrites the recorded evidenceId,
versionId and fulfillment timestamp to 4, 5 and 20.  The second attempt is
neither rejected nor a no-op, so re-fulfillment is exposed. -/
theorem c1_refuted :
    scenarioDB.request_items =
      [⟨1, 0, "Test Report", "fulfilled", some 2, some 3, some 10⟩] ∧
    fulfill_request_item scenarioDB 0 1 ⟨4, 5⟩ factoryFred 20 =
      .ok (scenarioDB2, ⟨true, 1, "fulfilled"⟩) ∧
    scenarioDB2.request_items =
      [⟨1, 0, "Test Report", "fulfilled", some 4, some 5, some 20⟩] :=
  ⟨by decide, by rfl, by decide⟩

/-- C1 (amended): an item never goes back from fulfilled to pending — under
any sequence of exposed operations every later row carrying the id of a
fulfilled item is still fulfilled — but fulfillItem is not guarded against
already-fulfilled items: a successful call always overwrites the item with
the given evidenceId, versionId and the current timestamp, whatever the
previous state was. -/
theorem c1_item_fulfillment :
    (∀ db, Reachable db → ∀ it ∈ db.request_items, it.status = "fulfilled" →
      ∀ (l : List (Op × Nat)), ∀ it1 ∈ (applyOps db l).request_items,
        it1.id = it.id → it1.status = "fulfilled") ∧
    (∀ (db : DB) (request_id item_id : Nat) (fulfill : FulfillRequest)
        (user : UserInfo) (now : Nat) (db1 : DB) (resp : FulfillResponse),
      fulfill_request_item db request_id item_id fulfill user now = .ok (db1, resp) →
      ∀ it1 ∈ db1.request_items, it1.id = item_id →
        it1.status = "fulfilled" ∧ it1.evidence_id = some fulfill.evidenceId ∧
        it1.version_id = some fulfill.versionId ∧ it1.fulfilled_at = some now) := by
  constructor
  · intro db hre it hm hstat l it1 hm1 hid1
    obtain ⟨⟨-, f2, -, -⟩, -, -, hnod, -⟩ := reachable_inv hre
    have hlt : it.id < db.nextId := (f2 it hm).1
    have hf : ∀ it2 ∈ db.request_items, it2.id = it.id → it2.status = "fulfilled" := by
      intro it2 hm2 hid2
      rw [nodup_map_id_inj hnod it2 hm2 it hm hid2]
      exact hstat
    exact fulfilled_persists l hlt hf it1 hm1 hid1
  · intro db request_id item_id fulfill user now db1 resp h
    obtain ⟨-, -, -, -, -, -, hi, -, -⟩ := fulfill_ok h
    intro it1 hm1 hid1
    rw [hi] at hm1
    obtain ⟨it0, hm0, rfl⟩ := List.mem_map.mp hm1
    rw [updItem_id] at hid1
    unfold updItem
    rw [if_pos hid1]
    exact ⟨rfl, rfl, rfl, rfl⟩

/-- C1 witness: applied to the concrete scenario, the fulfilled item 1 is
still fulfilled after a further operation, and the second fulfillment call
recorded evidence 4 on it. -/
theorem c1_item_fulfillment_witness :
    (⟨1, 0, "Test Report", "fulfilled", some 2, some 3, some 10⟩ : ItemRow).status
      = "fulfilled" ∧
    (⟨1, 0, "Test Report", "fulfilled", some 4, some 5, some 20⟩ : ItemRow).evidence_id
      = some 4 :=
  ⟨c1_item_fulfillment.1 scenarioDB (reachable_applyOps Reachable.init scenarioOps)
     ⟨1, 0, "Test Report", "fulfilled", some 2, some 3, some 10⟩ (by decide) (by decide)
     [(Op.opLogin ⟨"z", Role.buyer, none⟩, 30)]
     ⟨1, 0, "Test Report", "fulfilled", some 2, some 3, some 10⟩ (by decide) (by decide),
   (c1_item_fulfillment.2 scenarioDB 0 1 ⟨4, 5⟩ factoryFred 20 scenarioDB2
     ⟨true, 1, "fulfilled"⟩ (by rfl)
     ⟨1, 0, "Test Report", "fulfilled", some 4, some 5, some 20⟩
     (by decide) (by decide)).2.1⟩

/-- C3: for every evidence id of a reachable state the version numbers are
exactly the contiguous range 1..N with no repeats, where N counts its
versions; create_evidence gives the fresh evidence exactly the one version
numbered 1; add_evidence_version prepends a version numbered
MAX(existing) + 1 (1 when none exist) — the number is computed by the
ledger, never taken from the request body, which has no number field. -/
theorem c3_version_numbering :
    (∀ db, Reachable db → ∀ eid,
      (versionNumbers db eid).Nodup ∧
      ∀ k, k ∈ versionNumbers db eid ↔
        1 ≤ k ∧ k ≤ (versionNumbers db eid).length) ∧
    (∀ (db : DB) (evidence : EvidenceCreate) (user : UserInfo) (now : Nat)
        (db1 : DB) (resp : EvidenceResponse), Reachable db →
      create_evidence db evidence user now = .ok (db1, resp) →
      versionNumbers db1 resp.evidenceId = [1]) ∧
    (∀ (db : DB) (evidence_id : Nat) (version : VersionCreate) (user : UserInfo)
        (now : Nat) (db1 : DB) (resp : EvidenceResponse),
      add_evidence_version db evidence_id version user now = .ok (db1, resp) →
      versionNumbers db1 evidence_id =
        ((sql_max (versionNumbers db evidence_id)).getD 0 + 1)
          :: versionNumbers db evidence_id) := by
  refine ⟨?_, ?_, ?_⟩
  · intro db hre eid
    have hver := (reachable_inv hre).2.2.1 eid
    constructor
    · rw [hver]
      exact countdown_nodup _
    · intro k
      rw [hver, countdown_length, mem_countdown]
  · intro db evidence user now db1 resp hre hok
    obtain ⟨⟨-, -, -, f4⟩, -⟩ := reachable_inv hre
    obtain ⟨-, -, -, -, -, hv, -, -, hresp⟩ := create_evidence_ok hok
    subst hresp
    show versionNumbers db1 db.nextId = [1]
    unfold versionNumbers
    rw [hv, versionNumbersL_cons, if_pos rfl,
      versionNumbersL_eq_nil (fun v hm => by have := f4 v hm; omega)]
  · intro db evidence_id version user now db1 resp hok
    obtain ⟨-, -, -, -, -, -, hv, -, -⟩ := add_version_ok hok
    unfold versionNumbers
    rw [hv, versionNumbersL_cons, if_pos rfl]
    rfl

/-- C3 witness: in the concrete scenario the versions of evidence 2 are
numbered without repetition, and adding a version yields numbers 2, 1. -/
theorem c3_version_numbering_witness :
    (versionNumbers scenarioDB 2).Nodup ∧ versionNumbers dbAddVer 2 = [2, 1] :=
  ⟨(c3_version_numbering.1 scenarioDB (reachable_applyOps Reachable.init scenarioOps) 2).1,
   by
    rw [c3_version_numbering.2.2 scenarioDB 2 ⟨none, none⟩ factoryFred 25 dbAddVer
      ⟨2, 6⟩ (by rfl)]
    decide⟩

/-- C2 counterexample: the claim quantifies over every request.  dbC2pre
holds a request with id 0 and zero items; after the successful fulfillment
of item 2 of request 1, every item belonging to request 0 is fulfilled
(vacuously — it has none), yet its stored status is pending, not completed. -/
theorem c2_refuted :
    fulfill_request_item dbC2pre 1 2 ⟨3, 4⟩ factoryFred 10 =
      .ok (dbC2post, ⟨true, 2, "fulfilled"⟩) ∧
    dbC2post.request_items.filter (fun it => it.request_id == 0) = [] ∧
    dbC2post.requests.find? (fun r => r.id == 0) =
      some ⟨0, "bob", "F001", "t0", "pending", 1⟩ :=
  ⟨by rfl, by decide, by decide⟩

/-- C2 (amended): restricted to requests that have at least one item — the
data model of the specification — the property holds: after every successful
fulfill_request_item, every stored request with an item is completed exactly
when all of its items are fulfilled, and is otherwise pending; and a
completed request never reverts to pending under any sequence of exposed
operations.  A request with zero items stays pending even when the
completion condition holds vacuously. -/
theorem c2_request_status :
    (∀ (db : DB) (request_id item_id : Nat) (fulfill : FulfillRequest)
        (user : UserInfo) (now : Nat) (db1 : DB) (resp : FulfillResponse),
      Reachable db →
      fulfill_request_item db request_id item_id fulfill user now = .ok (db1, resp) →
      ∀ r ∈ db1.requests, (∃ it ∈ db1.request_items, it.request_id = r.id) →
        (r.status = "pending" ∨ r.status = "completed") ∧
        (r.status = "completed" ↔
          ∀ it ∈ db1.request_items, it.request_id = r.id → it.status = "fulfilled")) ∧
    (∀ db, Reachable db → ∀ r ∈ db.requests, r.status = "completed" →
      ∀ (l : List (Op × Nat)), ∀ r1 ∈ (applyOps db l).requests,
        r1.id = r.id → r1.status = "completed") := by
  constructor
  · intro db request_id item_id fulfill user now db1 resp hre hok r hm hex
    have hinv : DBInv db1 := by
      have h2 := applyOp_inv (.opFulfill request_id item_id fulfill user) now
        (reachable_inv hre)
      simpa only [applyOp, hok] using h2
    obtain ⟨-, hs, -, -, hcompl, -⟩ := hinv
    obtain ⟨hdom, hcomp⟩ := hs r hm
    exact ⟨hdom, fun hc => hcomp hc, fun hall => hcompl r hm hex hall⟩
  · intro db hre r hm hcomp l r1 hm1 hid1
    obtain ⟨⟨hf1, -, -, -⟩, -, -, -, -, hrnod⟩ := reachable_inv hre
    refine completed_persists l (hf1 r hm) ?_ r1 hm1 hid1
    intro r2 hm2 hid2
    rw [nodup_map_rid_inj hrnod r2 hm2 r hm hid2]
    exact hcomp

/-- C2 witness: in the concrete run, fulfilling the only item of request 1
makes its stored status completed (derived through the amended equivalence),
and the completed status survives a further operation. -/
theorem c2_request_status_witness :
    (⟨1, "bob", "F001", "t1", "completed", 2⟩ : RequestRow).status = "completed" ∧
    ((⟨1, "bob", "F001", "t1", "completed", 2⟩ : RequestRow).status = "pending" ∨
     (⟨1, "bob", "F001", "t1", "completed", 2⟩ : RequestRow).status = "completed") :=
  ⟨(c2_request_status.1 dbC2pre 1 2 ⟨3, 4⟩ factoryFred 10 dbC2post ⟨true, 2, "fulfilled"⟩
      (reachable_applyOps Reachable.init c2ops) (by rfl)
      ⟨1, "bob", "F001", "t1", "completed", 2⟩ (by decide)
      ⟨⟨2, 1, "Doc", "fulfilled", some 3, some 4, some 10⟩, by decide, by decide⟩).2.mpr
      (by decide),
   (c2_request_status.1 dbC2pre 1 2 ⟨3, 4⟩ factoryFred 10 dbC2post ⟨true, 2, "fulfilled"⟩
      (reachable_applyOps Reachable.init c2ops) (by rfl)
      ⟨1, "bob", "F001", "t1", "completed", 2⟩ (by decide)
      ⟨⟨2, 1, "Doc", "fulfilled", some 3, some 4, some 10⟩, by decide, by decide⟩).1⟩

/-- C8 counterexample: login appends an audit record whose object id is the
literal placeholder N/A, while the entity the operation creates is the
session identified by token T0 — the record does not carry the mutated
entity id, contradicting the claim for the login operation. -/
theorem c8_refuted :
    login initDB ⟨"u", Role.buyer, none⟩ 0 =
      .ok (dbLogin, ⟨"T0", "u", "buyer", none⟩) ∧
    dbLogin.audit_log.map (fun rec => rec.object_id) = [ObjId.na] ∧
    dbLogin.auth_tokens.map (fun t => t.token) = ["T0"] :=
  ⟨by rfl, by rfl, by rfl⟩

/-- C8 (amended): every successful mutating operation appends exactly one
audit record in the same atomic unit, with the action-specific metadata of
the source; for createEvidence, addVersion, createRequest and fulfillItem
the record object id is the id of the mutated entity returned to the
caller, while for login it is the constant placeholder N/A rather than the
created session identifier. -/
theorem c8_audit_records :
    (∀ (db : DB) (request : LoginRequest) (now : Nat) (db1 : DB) (resp : LoginResponse),
      login db request now = .ok (db1, resp) →
      db1.audit_log =
        { timestamp := now, actor_user_id := request.userId,
          actor_role := request.role.val, action := "LOGIN", object_type := "Request",
          object_id := .na,
          metadata := [("userId", .s request.userId), ("role", .s request.role.val),
                       ("factoryId", MetaVal.ofOptStr request.factoryId)] }
          :: db.audit_log) ∧
    (∀ (db : DB) (evidence : EvidenceCreate) (user : UserInfo) (now : Nat)
        (db1 : DB) (resp : EvidenceResponse),
      create_evidence db evidence user now = .ok (db1, resp) →
      db1.audit_log =
        { timestamp := now, actor_user_id := user.userId, actor_role := user.role,
          action := "CREATE_EVIDENCE", object_type := "Evidence",
          object_id := .entity resp.evidenceId,
          metadata := [("factoryId", MetaVal.ofOptStr user.factoryId),
                       ("name", .s evidence.name), ("docType", .s evidence.docType),
                       ("versionId", .ident resp.versionId)] } :: db.audit_log) ∧
    (∀ (db : DB) (evidence_id : Nat) (version : VersionCreate) (user : UserInfo)
        (now : Nat) (db1 : DB) (resp : EvidenceResponse),
      add_evidence_version db evidence_id version user now = .ok (db1, resp) →
      db1.audit_log =
        { timestamp := now, actor_user_id := user.userId, actor_role := user.role,
          action := "ADD_VERSION", object_type := "Version",
          object_id := .entity resp.versionId,
          metadata := [("factoryId", MetaVal.ofOptStr user.factoryId),
                       ("evidenceId", .ident evidence_id),
                       ("versionNumber",
                        .n ((sql_max (versionNumbers db evidence_id)).getD 0 + 1))] }
          :: db.audit_log) ∧
    (∀ (db : DB) (request : RequestCreate) (user : UserInfo) (now : Nat)
        (db1 : DB) (resp : CreateRequestResponse),
      create_request db request user now = .ok (db1, resp) →
      db1.audit_log =
        { timestamp := now, actor_user_id := user.userId, actor_role := user.role,
          action := "CREATE_REQUEST", object_type := "Request",
          object_id := .entity resp.requestId,
          metadata := [("buyerId", .s user.userId), ("factoryId", .s request.factoryId),
                       ("title", .s request.title),
                       ("itemCount", .n request.items.length),
                       ("items", .arr (request.items.map
                         (fun it => .obj [("docType", .s it.docType)])))] }
          :: db.audit_log) ∧
    (∀ (db : DB) (request_id item_id : Nat) (fulfill : FulfillRequest)
        (user : UserInfo) (now : Nat) (db1 : DB) (resp : FulfillResponse),
      fulfill_request_item db request_id item_id fulfill user now = .ok (db1, resp) →
      ∃ rrow ∈ db.requests, ∃ irow ∈ db.request_items,
        rrow.id = request_id ∧ irow.id = item_id ∧
        db1.audit_log =
          { timestamp := now, actor_user_id := user.userId, actor_role := user.role,
            action := "FULFILL_ITEM", object_type := "RequestItem",
            object_id := .entity resp.itemId,
            metadata := [("factoryId", MetaVal.ofOptStr user.factoryId),
                         ("buyerId", .s rrow.buyer_id), ("requestId", .ident request_id),
                         ("docType", .s irow.doc_type),
                         ("evidenceId", .ident fulfill.evidenceId),
                         ("versionId", .ident fulfill.versionId),
                         ("previousStatus", .s irow.status),
                         ("newStatus", .s "fulfilled")] } :: db.audit_log) := by
  refine ⟨?_, ?_, ?_, ?_, ?_⟩
  · intro db request now db1 resp h
    obtain ⟨-, -, -, -, -, -, haud, -⟩ := login_ok h
    exact haud
  · intro db evidence user now db1 resp h
    obtain ⟨-, -, -, -, -, -, -, haud, hresp⟩ := create_evidence_ok h
    subst hresp
    exact haud
  · intro db evidence_id version user now db1 resp h
    obtain ⟨-, -, -, -, -, -, -, -, haud, hresp⟩ := add_version_ok h
    subst hresp
    exact haud
  · intro db request user now db1 resp h
    obtain ⟨-, -, -, -, -, -, -, haud, hresp⟩ := create_request_ok h
    subst hresp
    exact haud
  · intro db request_id item_id fulfill user now db1 resp h
    obtain ⟨-, ⟨rrow, hmr, hidr, -, irow, hmi, hidi, -, -, -, haud⟩,
      -, -, -, -, -, -, hresp⟩ := fulfill_ok h
    subst hresp
    exact ⟨rrow, hmr, irow, hmi, hidr, hidi, haud⟩

/-- C8 witness: the concrete login and the concrete evidence creation each
append exactly one audit record with the stated object id and metadata. -/
theorem c8_audit_records_witness :
    dbLogin.audit_log =
      [{ timestamp := 0, actor_user_id := "u", actor_role := "buyer",
         action := "LOGIN", object_type := "Request", object_id := ObjId.na,
         metadata := [("userId", MetaVal.s "u"), ("role", MetaVal.s "buyer"),
                      ("factoryId", MetaVal.null)] }] ∧
    dbEv.audit_log =
      [{ timestamp := 2, actor_user_id := "fred", actor_role := "factory",
         action := "CREATE_EVIDENCE", object_type := "Evidence",
         object_id := ObjId.entity 0,
         metadata := [("factoryId", MetaVal.s "F001"), ("name", MetaVal.s "doc"),
                      ("docType", MetaVal.s "Test"),
                      ("versionId", MetaVal.ident 1)] }] :=
  ⟨c8_audit_records.1 initDB ⟨"u", Role.buyer, none⟩ 0 dbLogin
     ⟨"T0", "u", "buyer", none⟩ (by rfl),
   c8_audit_records.2.1 initDB ⟨"doc", "Test", none, none⟩ factoryFred 2 dbEv
     ⟨0, 1⟩ (by rfl)⟩

/-- C9: create_request invoked by a buyer with an empty items list succeeds
with no validation error, returning status pending and an empty itemIds
list; the stored request has status pending and no item rows reference it;
and under every further sequence of exposed operations every stored row with
its id still has status pending — fulfill_request_item can never apply to it
because it requires an item of the request to exist. -/
theorem c9_empty_request :
    ∀ (db : DB) (request : RequestCreate) (user : UserInfo) (now : Nat),
      Reachable db → user.role = "buyer" → request.items = [] →
      ∃ db1 resp, create_request db request user now = .ok (db1, resp) ∧
        resp.status = "pending" ∧ resp.itemIds = [] ∧ resp.requestId = db.nextId ∧
        (∀ r ∈ db1.requests, r.id = resp.requestId → r.status = "pending") ∧
        (∀ it ∈ db1.request_items, it.request_id ≠ resp.requestId) ∧
        ∀ (l : List (Op × Nat)), ∀ r ∈ (applyOps db1 l).requests,
          r.id = resp.requestId → r.status = "pending" := by
  intro db request user now hre hrole hitems
  obtain ⟨⟨hf1, hf2, -, -⟩, -⟩ := reachable_inv hre
  cases hl : create_request db request user now with
  | error e =>
    exfalso
    rw [create_request, @require_role_val Role.buyer user hrole] at hl
    cases hl
  | ok p =>
    obtain ⟨db1, resp⟩ := p
    obtain ⟨-, -, -, -, hr, hi, hn, -, hresp⟩ := create_request_ok hl
    subst hresp
    rw [hitems] at hi hn
    refine ⟨db1, _, rfl, rfl, by simp [make_items, hitems], rfl, ?_, ?_, ?_⟩
    · intro r hm hid
      rw [hr] at hm
      rcases List.mem_cons.mp hm with rfl | hm2
      · rfl
      · exfalso
        have := hf1 r hm2
        have hid2 : r.id = db.nextId := hid
        omega
    · intro it hm
      rw [hi] at hm
      simp only [make_items, List.nil_append] at hm
      have := hf2 it hm
      have hlt2 : it.request_id < db.nextId := this.2
      intro hc
      have hc2 : it.request_id = db.nextId := hc
      omega
    · intro l
      have hlt : db.nextId < db1.nextId := by
        rw [hn]
        simp
      refine (emptyPending_persists l hlt ?_ ?_).1
      · intro r hm hid
        rw [hr] at hm
        rcases List.mem_cons.mp hm with rfl | hm2
        · rfl
        · exfalso
          have := hf1 r hm2
          omega
      · intro it hm
        rw [hi] at hm
        simp only [make_items, List.nil_append] at hm
        have := hf2 it hm
        omega

/-- C9 witness: created from the fresh database with an empty items list,
request 0 of dbE stays pending even after an attempted fulfillment naming
it. -/
theorem c9_empty_request_witness :
    (⟨0, "bob", "F001", "t", "pending", 5⟩ : RequestRow).status = "pending" := by
  obtain ⟨db1, resp, hok, hst, hids, hrid, hpend, hno, hpers⟩ :=
    c9_empty_request initDB ⟨"F001", "t", []⟩ buyerBob 5 Reachable.init rfl rfl
  have hdb : Except.ok (db1, resp) = Except.ok (dbE,
      (⟨0, "pending", []⟩ : CreateRequestResponse)) := hok.symm.trans (by rfl)
  simp only [Except.ok.injEq, Prod.mk.injEq] at hdb
  obtain ⟨h1, h2⟩ := hdb
  subst h1
  subst h2
  exact hpers [(Op.opFulfill 0 0 ⟨9, 9⟩ factoryFred, 6)] _ (by decide) (by decide)
